import Mathlib

/-!
# Verification of the structure-evaluation core (`scripts/evaluate_structure.py`)

Shallow embedding of the scoring engine of the repository: backbone lDDT
(`compute_lddt`, `_compute_lddt_core`), Kabsch superposition RMSD
(`compute_global_rmsd`), interface lDDT (`identify_interface_residues`,
`compute_interface_lddt`), chain extraction (`extract_chain_to_pdb`) and the
primary-score selection of `main`.

Coordinates are embedded as rational triples.  The source compares Euclidean
distances (square roots of rational squared norms) against rational cutoffs
and thresholds; every such comparison is encoded here as the exactly
equivalent decidable predicate on *squared* distances:
  * `sqrt a < c  ↔  0 < c ∧ a < c²`                  (for `0 ≤ a`)
  * `sqrt a < sqrt b + t  ↔  (a-b-t² < 0) ∨ (a-b-t²)² < 4t²b`  (for `0 ≤ a,b`, `0 < t`)
so that the embedding stays computable; correctness of the encoding against
`Real.sqrt` is proved in `distLtB_correct` / `diffLtB_correct` below.
-/

namespace StructEval

/-- A 3-D coordinate (one CA atom position), as in the `Nx3` numpy arrays of
the source. -/
structure Vec3 where
  x : ℚ
  y : ℚ
  z : ℚ
deriving DecidableEq, Repr

/-- Placeholder coordinate used as the default of out-of-range list reads;
every theorem below only reads indices that are in bounds. -/
def v0 : Vec3 := ⟨0, 0, 0⟩

/-- Squared Euclidean distance, `np.sum(diff ** 2, axis=-1)` of the source. -/
def sqDistV (p q : Vec3) : ℚ :=
  (p.x - q.x) ^ 2 + (p.y - q.y) ^ 2 + (p.z - q.z) ^ 2

/-- Decides `sqrt a < c` for a squared distance `a ≥ 0`: the source's
`ref_dists < cutoff` style comparisons. -/
def distLtB (a c : ℚ) : Bool :=
  decide (0 < c) && decide (a < c ^ 2)

/-- Decides `sqrt a > 0` for a squared distance `a ≥ 0`: the source's
`ref_dists > 0` comparison. -/
def distPosB (a : ℚ) : Bool :=
  decide (0 < a)

/-- Decides `sqrt a < sqrt b + t` (for `0 ≤ a`, `0 ≤ b`, `0 < t`). -/
def sqrtLtSqrtAddB (a b t : ℚ) : Bool :=
  decide (a - b - t ^ 2 < 0) || decide ((a - b - t ^ 2) ^ 2 < 4 * t ^ 2 * b)

/-- Decides `|sqrt a - sqrt b| < t`: the source's `diff = abs(model_dist -
ref_dist); diff < t` comparisons, on squared distances. -/
def diffLtB (a b t : ℚ) : Bool :=
  sqrtLtSqrtAddB a b t && sqrtLtSqrtAddB b a t

/-! ## LDDTScorer: `_compute_lddt_core` and `compute_lddt` -/

/-- All index pairs of an `n × n` distance matrix, row-major, as flattened by
the source's boolean mask. -/
def allPairs (n : ℕ) : List (ℕ × ℕ) :=
  (List.range n).flatMap fun i => (List.range n).map fun j => (i, j)

/-- The source's mask on reference pairs: distance `< cutoff`, `> 0`, and not
an immediate sequence neighbor `(i, i+1)` / `(i+1, i)`. -/
def lddtMaskB (ref : List Vec3) (cutoff : ℚ) (p : ℕ × ℕ) : Bool :=
  let d := sqDistV (ref.getD p.1 v0) (ref.getD p.2 v0)
  distLtB d cutoff && distPosB d && !(decide (p.2 = p.1 + 1) || decide (p.1 = p.2 + 1))

/-- The masked reference pairs on which `_compute_lddt_core` scores. -/
def lddtMaskedPairs (ref : List Vec3) (cutoff : ℚ) : List (ℕ × ℕ) :=
  (allPairs ref.length).filter (lddtMaskB ref cutoff)

/-- The lDDT default thresholds `(0.5, 1.0, 2.0, 4.0)`. -/
def defaultThresholds : List ℚ := [1/2, 1, 2, 4]

/-- `_compute_lddt_core`: mean over thresholds of the fraction of masked
reference pairs whose distance is preserved within the threshold. -/
def lddtCore (model ref : List Vec3) (cutoff : ℚ) (thresholds : List ℚ) : ℚ :=
  if ref.length < 2 then 0
  else if lddtMaskedPairs ref cutoff = [] then 0
  else
    (thresholds.map fun t =>
      (((lddtMaskedPairs ref cutoff).countP fun p =>
          diffLtB (sqDistV (model.getD p.1 v0) (model.getD p.2 v0))
            (sqDistV (ref.getD p.1 v0) (ref.getD p.2 v0)) t : ℕ) : ℚ)
        / ((lddtMaskedPairs ref cutoff).length : ℚ)).sum / (thresholds.length : ℚ)

/-- `max(model_indices)` of a correspondence (the source takes `max` of a
nonempty python list; the `0` seed is only reached on the empty list, which no
caller passes to `max`). -/
def maxFst (ps : List (ℕ × ℕ)) : ℕ := ps.foldl (fun m p => max m p.1) 0

/-- `max(ref_indices)` of a correspondence. -/
def maxSnd (ps : List (ℕ × ℕ)) : ℕ := ps.foldl (fun m p => max m p.2) 0

/-- The shared fallback of `compute_lddt`: truncate both arrays to the shorter
length (a no-op when the lengths agree) and score index-by-index. -/
def lddtFallback (model ref : List Vec3) (cutoff : ℚ) (thresholds : List ℚ) : ℚ :=
  if model.length ≠ ref.length then
    let m := min model.length ref.length
    lddtCore (model.take m) (ref.take m) cutoff thresholds
  else lddtCore model ref cutoff thresholds

/-- `compute_lddt`: scores through the supplied correspondence when it has at
least 2 in-bounds pairs; a 1-pair correspondence returns `0.0`; an
out-of-bounds, empty or absent correspondence uses the truncation fallback. -/
def computeLddt (model ref : List Vec3) (cutoff : ℚ) (thresholds : List ℚ)
    (alignedPairs : Option (List (ℕ × ℕ))) : ℚ :=
  match alignedPairs with
  | some ps =>
    if 0 < ps.length then
      if ps.length < 2 then 0
      else if model.length ≤ maxFst ps ∨ ref.length ≤ maxSnd ps then
        lddtFallback model ref cutoff thresholds
      else
        lddtCore (ps.map fun p => model.getD p.1 v0) (ps.map fun p => ref.getD p.2 v0)
          cutoff thresholds
    else lddtFallback model ref cutoff thresholds
  | none => lddtFallback model ref cutoff thresholds

/-- The lDDT block of `main` (and of the binder branch): the score plus, when
a nonempty alignment was used, `coverage = len(aligned_pairs)/len(ref_coords)`
and the coverage-weighted score `lddt_score * coverage`.  (The source rounds
the reported numbers to 4 decimals for display; values here are exact.) -/
structure LddtMetrics where
  bbLddt : ℚ
  coverage : Option ℚ
  bbLddtCov : Option ℚ
deriving DecidableEq, Repr

/-- Lines 1090–1100 of the source (`main`). -/
def lddtWithCoverage (model ref : List Vec3)
    (alignedPairs : Option (List (ℕ × ℕ))) : LddtMetrics :=
  let s := computeLddt model ref 15 defaultThresholds alignedPairs
  match alignedPairs with
  | some ps =>
    if 0 < ps.length then
      let cov : ℚ := (ps.length : ℚ) / (ref.length : ℚ)
      ⟨s, some cov, some (s * cov)⟩
    else ⟨s, none, none⟩
  | none => ⟨s, none, none⟩

/-! ## RigidSuperposer: `compute_global_rmsd`

The 3×3 matrix algebra of the Kabsch step (`H = centered_model.T @
centered_ref`, `R = Vt.T @ U.T`, the determinant test and the last-row
negation) is embedded explicitly over ℚ.  `np.linalg.svd` is an external
library routine: it is modelled as an arbitrary function argument returning
the `(U, Vt)` factors, exactly as the source consumes them (the singular
values `S` are unused by the source). -/

/-- A 3×3 matrix given by its rows, as the source's numpy arrays. -/
structure Mat3 where
  r1 : Vec3
  r2 : Vec3
  r3 : Vec3
deriving DecidableEq, Repr

def vdot (u v : Vec3) : ℚ := u.x * v.x + u.y * v.y + u.z * v.z

def vadd (u v : Vec3) : Vec3 := ⟨u.x + v.x, u.y + v.y, u.z + v.z⟩

def vsub (u v : Vec3) : Vec3 := ⟨u.x - v.x, u.y - v.y, u.z - v.z⟩

def vneg (u : Vec3) : Vec3 := ⟨-u.x, -u.y, -u.z⟩

def vsmul (c : ℚ) (u : Vec3) : Vec3 := ⟨c * u.x, c * u.y, c * u.z⟩

def transposeM (A : Mat3) : Mat3 :=
  ⟨⟨A.r1.x, A.r2.x, A.r3.x⟩, ⟨A.r1.y, A.r2.y, A.r3.y⟩, ⟨A.r1.z, A.r2.z, A.r3.z⟩⟩

def mulM (A B : Mat3) : Mat3 :=
  ⟨⟨vdot A.r1 (transposeM B).r1, vdot A.r1 (transposeM B).r2, vdot A.r1 (transposeM B).r3⟩,
   ⟨vdot A.r2 (transposeM B).r1, vdot A.r2 (transposeM B).r2, vdot A.r2 (transposeM B).r3⟩,
   ⟨vdot A.r3 (transposeM B).r1, vdot A.r3 (transposeM B).r2, vdot A.r3 (transposeM B).r3⟩⟩

def detM (A : Mat3) : ℚ :=
  A.r1.x * (A.r2.y * A.r3.z - A.r2.z * A.r3.y)
    - A.r1.y * (A.r2.x * A.r3.z - A.r2.z * A.r3.x)
    + A.r1.z * (A.r2.x * A.r3.y - A.r2.y * A.r3.x)

/-- `Vt[-1, :] *= -1`: negate the last row. -/
def negLastRow (A : Mat3) : Mat3 := ⟨A.r1, A.r2, vneg A.r3⟩

/-- `A @ v` for a column vector. -/
def matVec (A : Mat3) (v : Vec3) : Vec3 := ⟨vdot A.r1 v, vdot A.r2 v, vdot A.r3 v⟩

def idM : Mat3 := ⟨⟨1, 0, 0⟩, ⟨0, 1, 0⟩, ⟨0, 0, 1⟩⟩

/-- Lines 601–611 of the source: `R = Vt.T @ U.T`; if `det(R) < 0`, negate the
last row of `Vt` and recompute `R`. -/
def rotationFromSvd (U Vt : Mat3) : Mat3 :=
  if detM (mulM (transposeM Vt) (transposeM U)) < 0 then
    mulM (transposeM (negLastRow Vt)) (transposeM U)
  else mulM (transposeM Vt) (transposeM U)

/-- The result record of `compute_global_rmsd`.  The fields `globalMsd` and
`alignedMsd` hold the *mean squared deviation*; the source reports
`round(sqrt(msd), 3)`, a strictly monotone transformation applied for
display, and the `None`/value structure is unchanged. -/
structure GlobalRmsdResult where
  globalMsd : Option ℚ
  alignedMsd : Option ℚ
  nModel : ℕ
  nRef : ℕ
  nAligned : ℕ
deriving DecidableEq, Repr

/-- `np.mean(coords, axis=0)`. -/
def centroid (l : List Vec3) : Vec3 :=
  let s := l.foldl vadd ⟨0, 0, 0⟩
  ⟨s.x / (l.length : ℚ), s.y / (l.length : ℚ), s.z / (l.length : ℚ)⟩

def outer (u v : Vec3) : Mat3 := ⟨vsmul u.x v, vsmul u.y v, vsmul u.z v⟩

def maddM (A B : Mat3) : Mat3 := ⟨vadd A.r1 B.r1, vadd A.r2 B.r2, vadd A.r3 B.r3⟩

def zeroM : Mat3 := ⟨⟨0, 0, 0⟩, ⟨0, 0, 0⟩, ⟨0, 0, 0⟩⟩

/-- `H = centered_model.T @ centered_ref = Σₖ outer(cmₖ, crₖ)`. -/
def covarianceH (cm cr : List Vec3) : Mat3 :=
  ((cm.zip cr).map fun p => outer p.1 p.2).foldl maddM zeroM

/-- Mean squared deviation over a list of coordinate pairs
(`np.mean(np.sum(diff ** 2, axis=1))`). -/
def msd (ps : List (Vec3 × Vec3)) : ℚ :=
  ((ps.map fun p => sqDistV p.1 p.2).sum) / (ps.length : ℚ)

/-- The correspondence actually used for fitting by `compute_global_rmsd`:
a supplied list with `> 1` pairs passing the bounds check, else `None`
(which selects the min-length truncation). -/
def usablePairs (model ref : List Vec3) (alignedPairs : Option (List (ℕ × ℕ))) :
    Option (List (ℕ × ℕ)) :=
  match alignedPairs with
  | some ps =>
    if 1 < ps.length then
      if model.length ≤ maxFst ps ∨ ref.length ≤ maxSnd ps then none else some ps
    else none
  | none => none

/-- `compute_global_rmsd`.  `svd` stands for the external `np.linalg.svd`
call, returning the `(U, Vt)` factors of its argument. -/
def computeGlobalRmsd (svd : Mat3 → Mat3 × Mat3) (model ref : List Vec3)
    (alignedPairs : Option (List (ℕ × ℕ))) : GlobalRmsdResult :=
  if model.length = 0 ∨ ref.length = 0 then
    ⟨none, none, model.length, ref.length, 0⟩
  else
    let usable := usablePairs model ref alignedPairs
    let minLen := min model.length ref.length
    let alignedModel := match usable with
      | some ps => ps.map fun p => model.getD p.1 v0
      | none => model.take minLen
    let alignedRef := match usable with
      | some ps => ps.map fun p => ref.getD p.2 v0
      | none => ref.take minLen
    let nAligned := match usable with
      | some ps => ps.length
      | none => minLen
    let cm := centroid alignedModel
    let cr := centroid alignedRef
    let H := covarianceH (alignedModel.map fun p => vsub p cm)
      (alignedRef.map fun p => vsub p cr)
    let uv := svd H
    let R := rotationFromSvd uv.1 uv.2
    let transformed := model.map fun p => vadd (matVec R (vsub p cm)) cr
    let alignedDiffPairs := match usable with
      | some ps => ps.map fun p => (transformed.getD p.1 v0, ref.getD p.2 v0)
      | none =>
        (transformed.take (min transformed.length ref.length)).zip
          (ref.take (min transformed.length ref.length))
    let m2 := min transformed.length ref.length
    ⟨some (msd ((transformed.take m2).zip (ref.take m2))), some (msd alignedDiffPairs),
      model.length, ref.length, nAligned⟩

/-! ## InterfaceAnalyzer: `identify_interface_residues` and
`compute_interface_lddt` -/

/-- `identify_interface_residues`: per-chain boolean masks of residues within
`interface_cutoff` of any residue of the other chain, from the cross-chain
distance matrix (`np.any(distances < cutoff, axis=1)` / `axis=0`). -/
def identifyInterfaceResidues (a b : List Vec3) (cutoff : ℚ) :
    List Bool × List Bool :=
  if a.length = 0 ∨ b.length = 0 then ([], [])
  else
    ((List.range a.length).map fun i =>
        (List.range b.length).any fun j => distLtB (sqDistV (a.getD i v0) (b.getD j v0)) cutoff,
     (List.range b.length).map fun j =>
        (List.range a.length).any fun i => distLtB (sqDistV (a.getD i v0) (b.getD j v0)) cutoff)

/-- Whether the reference cross-chain pair `(i, j)` is within the lDDT cutoff
(`ref_dists[i, j] < lddt_cutoff` on the cross-chain block). -/
def closeCrossB (rA rB : List Vec3) (cutoff : ℚ) (i j : ℕ) : Bool :=
  distLtB (sqDistV (rA.getD i v0) (rB.getD j v0)) cutoff

/-- Per-contact preserved fraction:
`sum(1 for t in thresholds if diff < t) / len(thresholds)`. -/
def preservedFrac (modelSq refSq : ℚ) (thresholds : List ℚ) : ℚ :=
  ((thresholds.countP fun t => diffLtB modelSq refSq t : ℕ) : ℚ) / (thresholds.length : ℚ)

/-- Indices at which a boolean mask is set (`np.where(mask)[0]`). -/
def indicesWhere (mask : List Bool) : List ℕ :=
  (List.range mask.length).filter fun i => mask.getD i false

/-- `ref_to_model = {r: m for m, r in aligned_pairs}`: python dict
comprehension, later entries overwriting earlier ones, then keyed lookup. -/
def refToModel (ps : List (ℕ × ℕ)) (r : ℕ) : Option ℕ :=
  (ps.reverse.find? fun p => p.2 = r).map Prod.fst

/-- The contacts enumerated by the two loops of the matching-length path of
`compute_interface_lddt` (reference indices `(i, j)` across chains A/B): the
loop over chain-A interface residues, then the loop over chain-B interface
residues restricted to non-interface chain-A partners. -/
def interfaceContactsEq (rA rB : List Vec3) (maskA maskB : List Bool)
    (lddtCutoff : ℚ) : List (ℕ × ℕ) :=
  ((indicesWhere maskA).flatMap fun i =>
    ((List.range rB.length).filter fun j => closeCrossB rA rB lddtCutoff i j).map
      fun j => (i, j))
  ++ ((indicesWhere maskB).flatMap fun j =>
    ((List.range rA.length).filter fun i =>
        !maskA.getD i false && closeCrossB rA rB lddtCutoff i j).map
      fun i => (i, j))

/-- The contacts enumerated by the two loops of the length-mismatch path of
`compute_interface_lddt`: as `interfaceContactsEq`, but a residue is skipped
(`continue`) when it has no entry in its chain's `ref_to_model` mapping; each
element carries the reference pair and the looked-up model pair. -/
def interfaceContactsAln (rA rB : List Vec3) (maskA maskB : List Bool)
    (lddtCutoff : ℚ) (lookA lookB : ℕ → Option ℕ) : List ((ℕ × ℕ) × (ℕ × ℕ)) :=
  (((indicesWhere maskA).filter fun ri => (lookA ri).isSome).flatMap fun ri =>
    (((List.range rB.length).filter fun rj =>
        (lookB rj).isSome && closeCrossB rA rB lddtCutoff ri rj).map
      fun rj => ((ri, rj), ((lookA ri).getD 0, (lookB rj).getD 0))))
  ++ (((indicesWhere maskB).filter fun rj => (lookB rj).isSome).flatMap fun rj =>
    (((List.range rA.length).filter fun ri =>
        !maskA.getD ri false && (lookA ri).isSome && closeCrossB rA rB lddtCutoff ri rj).map
      fun ri => ((ri, rj), ((lookA ri).getD 0, (lookB rj).getD 0))))

/-- The result record of `compute_interface_lddt`.  (The always-`None` fields
`interface_lddt_a` / `interface_lddt_b` of the source dict are omitted; the
reported `interface_lddt` is rounded to 4 decimals by the source, exact
here.) -/
structure InterfaceResult where
  interfaceLddt : Option ℚ
  interfaceCountA : ℕ
  interfaceCountB : ℕ
  totalInterfaceContacts : ℕ
  error : Option String
deriving DecidableEq, Repr

/-- `compute_interface_lddt`.  In the length-mismatch path the source reads
`model_coords_a[model_i]` / `model_coords_b[model_j]` for every counted
contact, with no bounds validation on the supplied correspondences: an
out-of-range mapped model index raises `IndexError`, which escapes the
function (the caller catches it) — modelled here as `none`.  Every other
path returns `some` of the result record; in the matching-length path the
chain lengths agree, so all coordinate reads are in range. -/
def computeInterfaceLddt (mA mB rA rB : List Vec3)
    (interfaceCutoff lddtCutoff : ℚ) (thresholds : List ℚ)
    (apA apB : Option (List (ℕ × ℕ))) : Option InterfaceResult :=
  if rA.length = 0 ∨ rB.length = 0 then
    some ⟨none, 0, 0, 0, some "Empty chain coordinates"⟩
  else if mA.length ≠ rA.length ∨ mB.length ≠ rB.length then
    match apA, apB with
    | some psA, some psB =>
      let masks := identifyInterfaceResidues rA rB interfaceCutoff
      let cA := masks.1.count true
      let cB := masks.2.count true
      if cA = 0 ∧ cB = 0 then some ⟨none, cA, cB, 0, some "No interface residues found"⟩
      else
        let contacts := interfaceContactsAln rA rB masks.1 masks.2 lddtCutoff
          (refToModel psA) (refToModel psB)
        if contacts.all fun q => decide (q.2.1 < mA.length) && decide (q.2.2 < mB.length) then
          let totalPreserved := (contacts.map fun q =>
            preservedFrac (sqDistV (mA.getD q.2.1 v0) (mB.getD q.2.2 v0))
              (sqDistV (rA.getD q.1.1 v0) (rB.getD q.1.2 v0)) thresholds).sum
          some ⟨some (if 0 < contacts.length then totalPreserved / (contacts.length : ℚ) else 0),
            cA, cB, contacts.length, none⟩
        else none
    | _, _ => some ⟨none, 0, 0, 0, some "Chain length mismatch and no alignment provided"⟩
  else
    let masks := identifyInterfaceResidues rA rB interfaceCutoff
    let cA := masks.1.count true
    let cB := masks.2.count true
    if cA = 0 ∧ cB = 0 then some ⟨none, cA, cB, 0, some "No interface residues found"⟩
    else
      let contacts := interfaceContactsEq rA rB masks.1 masks.2 lddtCutoff
      let totalPreserved := (contacts.map fun p =>
        preservedFrac (sqDistV (mA.getD p.1 v0) (mB.getD p.2 v0))
          (sqDistV (rA.getD p.1 v0) (rB.getD p.2 v0)) thresholds).sum
      some ⟨some (if 0 < contacts.length then totalPreserved / (contacts.length : ℚ) else 0),
        cA, cB, contacts.length, none⟩

/-! ## StructureCoordinateExtractor: `extract_chain_to_pdb`

File contents are embedded as lists of lines, each line a list of characters
(without trailing newline); the Python string primitives used by the source
(`startswith`, `strip`, `split`, indexing) are embedded structurally over
character lists.  The function's boolean success flag and, for the PDB
branch, the emitted lines are modelled; a raised exception (caught by the
source's `except`, which returns `False`) is modelled as a `false` flag. -/

/-- Python `str.strip()`: drop whitespace from both ends. -/
def pyStrip (cs : List Char) : List Char :=
  ((cs.dropWhile Char.isWhitespace).reverse.dropWhile Char.isWhitespace).reverse

/-- Python `str.split()` with no separator: whitespace runs, empties
dropped. -/
def pySplitAux : List Char → List Char → List (List Char)
  | [], cur => if cur = [] then [] else [cur.reverse]
  | c :: cs, cur =>
    if c.isWhitespace then
      if cur = [] then pySplitAux cs [] else cur.reverse :: pySplitAux cs []
    else pySplitAux cs (c :: cur)

def pySplit (cs : List Char) : List (List Char) := pySplitAux cs []

/-- Python `str.split(sep)` for a single-character separator (keeps
empties). -/
def splitOnCharAux (sep : Char) : List Char → List Char → List (List Char)
  | [], cur => [cur.reverse]
  | c :: cs, cur =>
    if c = sep then cur.reverse :: splitOnCharAux sep cs []
    else splitOnCharAux sep cs (c :: cur)

def splitOnChar (sep : Char) (cs : List Char) : List (List Char) :=
  splitOnCharAux sep cs []

def lineStartsWithAtom (s : List Char) : Bool :=
  List.isPrefixOf "ATOM".toList s || List.isPrefixOf "HETATM".toList s

/-- The PDB branch of `extract_chain_to_pdb` (lines 195–203): copy
`ATOM`/`HETATM` lines whose column-22 chain id (`line[21]`) matches, and
`END` lines.  A too-short `ATOM` line makes `line[21]` raise `IndexError`
(flag `false`); zero matching atoms is *not* checked. -/
def extractChainPdb : List (List Char) → Char → Bool × List (List Char)
  | [], _ => (true, [])
  | l :: rest, chain =>
    if lineStartsWithAtom l then
      if 21 < l.length then
        if l.getD 21 ' ' = chain then
          ((extractChainPdb rest chain).1, l :: (extractChainPdb rest chain).2)
        else extractChainPdb rest chain
      else (false, [])
    else if List.isPrefixOf "END".toList l then
      ((extractChainPdb rest chain).1, l :: (extractChainPdb rest chain).2)
    else extractChainPdb rest chain

/-- `col_indices[col_name] = len(col_indices)`: insert-or-overwrite with the
current dict size as value. -/
def dictInsert (d : List (List Char × ℕ)) (k : List Char) : List (List Char × ℕ) :=
  if (d.find? fun e => e.1 = k).isSome then
    d.map fun e => if e.1 = k then (k, d.length) else e
  else d ++ [(k, d.length)]

/-- `col_indices.get(key, default)`. -/
def dictGet (d : List (List Char × ℕ)) (k : List Char) (dflt : ℕ) : ℕ :=
  match d.find? fun e => e.1 = k with
  | some e => e.2
  | none => dflt

/-- The CIF collection loop of `extract_chain_to_pdb` (lines 139–168):
builds the column-index dict from `_atom_site.` headers and collects the
whitespace-tokenized `ATOM`/`HETATM` rows of the requested chain; `none`
models the `IndexError` of `split(".")[1].split()[0]` on a header with no
name after the dot. -/
def cifCollect : List (List Char) → Bool → List (List Char × ℕ) →
    List (List (List Char)) → List Char →
    Option (List (List Char × ℕ) × List (List (List Char)))
  | [], _, cols, atoms, _ => some (cols, atoms)
  | l :: rest, inSite, cols, atoms, chain =>
    let s := pyStrip l
    if List.isPrefixOf "_atom_site.".toList s then
      match pySplit ((splitOnChar '.' s).getD 1 []) with
      | [] => none
      | name :: _ => cifCollect rest true (dictInsert cols name) atoms chain
    else if inSite ∧ (List.isPrefixOf "_".toList s ∨ List.isPrefixOf "#".toList s
        ∨ s = [] ∨ List.isPrefixOf "loop_".toList s) then
      if atoms ≠ [] then some (cols, atoms)
      else cifCollect rest false cols atoms chain
    else if inSite ∧ (List.isPrefixOf "ATOM".toList s
        ∨ List.isPrefixOf "HETATM".toList s) then
      if dictGet cols "label_asym_id".toList 6 < (pySplit s).length
          ∧ (pySplit s).getD (dictGet cols "label_asym_id".toList 6) [] = chain then
        cifCollect rest inSite cols (atoms ++ [pySplit s]) chain
      else cifCollect rest inSite cols atoms chain
    else cifCollect rest inSite cols atoms chain

/-- Success of Python `int(token)` on the residue-number tokens. -/
def parseIntOk (cs : List Char) : Bool :=
  match cs with
  | [] => false
  | c :: rest =>
    if c = '-' ∨ c = '+' then !rest.isEmpty && rest.all Char.isDigit
    else cs.all Char.isDigit

/-- Success of Python `float(token)` on the decimal/scientific literals these
files carry (optional sign, digits with an optional point, optional
exponent). -/
def parseFloatOk (cs : List Char) : Bool :=
  let body := match cs with
    | c :: rest => if c = '+' ∨ c = '-' then rest else cs
    | [] => []
  let mantOk : List Char → Bool := fun m =>
    match splitOnChar '.' m with
    | [a] => !a.isEmpty && a.all Char.isDigit
    | [a, b] => (!a.isEmpty || !b.isEmpty) && a.all Char.isDigit && b.all Char.isDigit
    | _ => false
  match splitOnChar 'e' (body.map Char.toLower) with
  | [m] => mantOk m
  | [m, ex] =>
    let e := match ex with
      | c :: rest => if c = '+' ∨ c = '-' then rest else ex
      | [] => []
    mantOk m && (!e.isEmpty && e.all Char.isDigit)
  | _ => false

/-- The PDB-serialization loop of the CIF branch (lines 174–193): succeeds
iff every collected row has the accessed columns in range and numerically
parseable fields (`int(res_num)`, `float` coordinates); any violation raises
and the source returns `False`. -/
def cifWriteOk (cols : List (List Char × ℕ)) (atoms : List (List (List Char))) : Bool :=
  atoms.all fun parts =>
    decide (dictGet cols "label_atom_id".toList 3 < parts.length)
      && decide (dictGet cols "label_comp_id".toList 5 < parts.length)
      && decide (dictGet cols "label_seq_id".toList 8 < parts.length)
      && decide (dictGet cols "Cartn_x".toList 10 < parts.length)
      && decide (dictGet cols "Cartn_y".toList 11 < parts.length)
      && decide (dictGet cols "Cartn_z".toList 12 < parts.length)
      && parseIntOk (parts.getD (dictGet cols "label_seq_id".toList 8) [])
      && parseFloatOk (parts.getD (dictGet cols "Cartn_x".toList 10) [])
      && parseFloatOk (parts.getD (dictGet cols "Cartn_y".toList 11) [])
      && parseFloatOk (parts.getD (dictGet cols "Cartn_z".toList 12) [])
      && (match cols.find? fun e => e.1 = "type_symbol".toList with
          | some e => decide (e.2 < parts.length)
          | none => true)

/-- The CIF branch of `extract_chain_to_pdb` (lines 139–193): collect the
requested chain's rows; `if not atoms: return False`; otherwise serialize
(success iff every row is well formed). -/
def extractChainCif (lines : List (List Char)) (chain : List Char) : Bool :=
  match cifCollect lines false [] [] chain with
  | none => false
  | some (cols, atoms) => if atoms = [] then false else cifWriteOk cols atoms

/-! ## ScoreAggregator: the binder primary-score selection of `main`
(lines 1273–1306) -/

/-- The metric values the binder selection draws from: the binder-chain,
complex and monomer TM-scores computed upstream, and the externally supplied
AF3 confidences (`chain_pair_iptm`, `iptm`, `ranking_score`).  The JSON
matrix is typed as nested lists with nullable entries. -/
structure BinderScores where
  binderTmScore : Option ℚ
  complexTmScore : Option ℚ
  tmScore : Option ℚ
  chainPairIptm : Option (List (List (Option ℚ)))
  iptm : Option ℚ
  rankingScore : Option ℚ
deriving DecidableEq, Repr

/-- The off-diagonal entries scanned by the `chain_pair_iptm` double loop, in
loop order (rows with their indices, entries with theirs, skipping the
diagonal and null entries). -/
def offDiagEntries (rows : List (List (Option ℚ))) : List ℚ :=
  rows.enum.flatMap fun ir =>
    ir.2.enum.filterMap fun jv => if ir.1 = jv.1 then none else jv.2

/-- One step of the running maximum (`if val > max_off_diag: max = val`). -/
def maxStep (acc : Option ℚ) (v : ℚ) : Option ℚ :=
  match acc with
  | none => some v
  | some m => if m < v then some v else some m

/-- Lines 1287–1297: the largest off-diagonal `chain_pair_iptm` entry, `none`
when the matrix is absent, empty (falsy) or has no non-null off-diagonal
entry. -/
def maxOffDiag (cp : Option (List (List (Option ℚ)))) : Option ℚ :=
  match cp with
  | none => none
  | some rows => if rows = [] then none else (offDiagEntries rows).foldl maxStep none

/-- Lines 1273–1306: the binder primary_score/primary_metric selection. -/
def selectBinderPrimary (m : BinderScores) : Option ℚ × String :=
  match m.binderTmScore with
  | some v => (some v, "tm_score")
  | none =>
    match m.complexTmScore with
    | some v => (some v, "tm_score")
    | none =>
      match m.tmScore with
      | some v => (some v, "tm_score")
      | none =>
        match maxOffDiag m.chainPairIptm with
        | some v => (some v, "iptm")
        | none =>
          match m.iptm with
          | some v => (some v, "iptm")
          | none => (m.rankingScore, "ranking_score")

/-- First-available selection over a priority list of candidate
(score, metric) tiers, falling through to a final default tier.  Written
from the spec's words: "First available wins; no averaging across tiers." -/
def firstAvailable : List (Option ℚ × String) → (Option ℚ × String) → Option ℚ × String
  | [], dflt => dflt
  | (some v, lbl) :: _, _ => (some v, lbl)
  | (none, _) :: rest, dflt => firstAvailable rest dflt

/-- The spec's stated binder priority: binder-chain TM-score, else complex
TM-score, else monomer-style TM-score, else largest off-diagonal pairwise
interface confidence, else the scalar interface confidence, else the
composite ranking score. -/
def specBinderPrimary (m : BinderScores) : Option ℚ × String :=
  firstAvailable
    [(m.binderTmScore, "tm_score"), (m.complexTmScore, "tm_score"),
     (m.tmScore, "tm_score"), (maxOffDiag m.chainPairIptm, "iptm"),
     (m.iptm, "iptm")]
    (m.rankingScore, "ranking_score")

/-! ## Theorems -/

lemma sqDistV_nonneg (p q : Vec3) : 0 ≤ sqDistV p q := by
  unfold sqDistV; positivity

lemma sqDistV_self (p : Vec3) : sqDistV p p = 0 := by
  unfold sqDistV; ring

/-- The squared-distance encoding of `<` agrees with the real comparison. -/
lemma distLtB_correct (a c : ℚ) (ha : 0 ≤ a) :
    distLtB a c = true ↔ Real.sqrt (a : ℝ) < (c : ℝ) := by
  unfold distLtB
  simp only [Bool.and_eq_true, decide_eq_true_eq]
  constructor
  · rintro ⟨hc, hac⟩
    have hc' : (0 : ℝ) < (c : ℝ) := by exact_mod_cast hc
    rw [show ((c : ℝ)) = Real.sqrt ((c : ℝ) ^ 2) by
      rw [Real.sqrt_sq hc'.le]]
    apply Real.sqrt_lt_sqrt (by exact_mod_cast ha)
    exact_mod_cast hac
  · intro h
    have hc : (0 : ℝ) < (c : ℝ) := lt_of_le_of_lt (Real.sqrt_nonneg _) h
    refine ⟨by exact_mod_cast hc, ?_⟩
    have := (Real.sqrt_lt' hc).mp h
    exact_mod_cast this

lemma sqrtLtSqrtAddB_correct (a b t : ℚ) (ha : 0 ≤ a) (hb : 0 ≤ b) (ht : 0 < t) :
    sqrtLtSqrtAddB a b t = true ↔
      Real.sqrt (a : ℝ) < Real.sqrt (b : ℝ) + (t : ℝ) := by
  have haR : (0 : ℝ) ≤ (a : ℝ) := by exact_mod_cast ha
  have hbR : (0 : ℝ) ≤ (b : ℝ) := by exact_mod_cast hb
  have htR : (0 : ℝ) < (t : ℝ) := by exact_mod_cast ht
  have hrhs : (0 : ℝ) < Real.sqrt (b : ℝ) + (t : ℝ) :=
    add_pos_of_nonneg_of_pos (Real.sqrt_nonneg _) htR
  have hsq : (Real.sqrt (b : ℝ) + (t : ℝ)) ^ 2
      = (b : ℝ) + 2 * (t : ℝ) * Real.sqrt (b : ℝ) + (t : ℝ) ^ 2 := by
    have := Real.sq_sqrt hbR
    ring_nf
    nlinarith [Real.sq_sqrt hbR]
  have key : Real.sqrt (a : ℝ) < Real.sqrt (b : ℝ) + (t : ℝ) ↔
      (a : ℝ) < (b : ℝ) + 2 * (t : ℝ) * Real.sqrt (b : ℝ) + (t : ℝ) ^ 2 := by
    rw [show Real.sqrt (b : ℝ) + (t : ℝ) = Real.sqrt ((Real.sqrt (b : ℝ) + (t : ℝ)) ^ 2) by
      rw [Real.sqrt_sq hrhs.le]]
    rw [Real.sqrt_lt_sqrt_iff haR, hsq]
  unfold sqrtLtSqrtAddB
  simp only [Bool.or_eq_true, decide_eq_true_eq]
  rw [key]
  constructor
  · rintro (h | h)
    · have : (a : ℝ) - (b : ℝ) - (t : ℝ) ^ 2 < 0 := by exact_mod_cast h
      nlinarith [Real.sqrt_nonneg (b : ℝ), htR]
    · have hR : ((a : ℝ) - (b : ℝ) - (t : ℝ) ^ 2) ^ 2 < 4 * (t : ℝ) ^ 2 * (b : ℝ) := by
        exact_mod_cast h
      by_cases hL : (a : ℝ) - (b : ℝ) - (t : ℝ) ^ 2 < 0
      · nlinarith [Real.sqrt_nonneg (b : ℝ), htR]
      · push_neg at hL
        by_contra hcon
        push_neg at hcon
        have h1 : 2 * (t : ℝ) * Real.sqrt (b : ℝ) ≤ (a : ℝ) - (b : ℝ) - (t : ℝ) ^ 2 := by
          linarith
        have h2 : (0 : ℝ) ≤ 2 * (t : ℝ) * Real.sqrt (b : ℝ) := by positivity
        have h3 : (2 * (t : ℝ) * Real.sqrt (b : ℝ)) ^ 2
            ≤ ((a : ℝ) - (b : ℝ) - (t : ℝ) ^ 2) ^ 2 := pow_le_pow_left₀ h2 h1 2
        have h4 : (2 * (t : ℝ) * Real.sqrt (b : ℝ)) ^ 2 = 4 * (t : ℝ) ^ 2 * (b : ℝ) := by
          rw [mul_pow, mul_pow, Real.sq_sqrt hbR]; ring
        linarith
  · intro h
    by_cases hL : (a : ℚ) - b - t ^ 2 < 0
    · exact Or.inl hL
    · right
      push_neg at hL
      have hLR : (0 : ℝ) ≤ (a : ℝ) - (b : ℝ) - (t : ℝ) ^ 2 := by exact_mod_cast hL
      have hs : Real.sqrt (b : ℝ) * Real.sqrt (b : ℝ) = (b : ℝ) := Real.mul_self_sqrt hbR
      have : ((a : ℝ) - (b : ℝ) - (t : ℝ) ^ 2) ^ 2 < 4 * (t : ℝ) ^ 2 * (b : ℝ) := by
        nlinarith [Real.sqrt_nonneg (b : ℝ), htR, hs]
      exact_mod_cast this

/-- The squared-distance encoding of `|d₁ - d₂| < t` agrees with the real
comparison. -/
lemma diffLtB_correct (a b t : ℚ) (ha : 0 ≤ a) (hb : 0 ≤ b) (ht : 0 < t) :
    diffLtB a b t = true ↔
      |Real.sqrt (a : ℝ) - Real.sqrt (b : ℝ)| < (t : ℝ) := by
  unfold diffLtB
  rw [Bool.and_eq_true, sqrtLtSqrtAddB_correct a b t ha hb ht,
    sqrtLtSqrtAddB_correct b a t hb ha ht, abs_sub_lt_iff]
  constructor
  · rintro ⟨h1, h2⟩; exact ⟨by linarith, by linarith⟩
  · rintro ⟨h1, h2⟩; exact ⟨by linarith, by linarith⟩

lemma diffLtB_self (a t : ℚ) (ht : t ≠ 0) : diffLtB a a t = true := by
  have h : a - a - t ^ 2 < 0 := by
    have : 0 < t ^ 2 := lt_of_le_of_ne (sq_nonneg t) (Ne.symm (pow_ne_zero 2 ht))
    linarith
  unfold diffLtB sqrtLtSqrtAddB
  simp only [Bool.and_eq_true, Bool.or_eq_true, decide_eq_true_eq]
  exact ⟨Or.inl h, Or.inl h⟩

lemma lddtCore_nonneg (model ref : List Vec3) (cutoff : ℚ) (thresholds : List ℚ) :
    0 ≤ lddtCore model ref cutoff thresholds := by
  unfold lddtCore
  split
  · exact le_refl 0
  · split
    · exact le_refl 0
    · apply div_nonneg _ (by positivity)
      apply List.sum_nonneg
      intro q hq
      simp only [List.mem_map] at hq
      obtain ⟨t, _, rfl⟩ := hq
      positivity

lemma computeLddt_nonneg (model ref : List Vec3) (cutoff : ℚ) (thresholds : List ℚ)
    (ap : Option (List (ℕ × ℕ))) : 0 ≤ computeLddt model ref cutoff thresholds ap := by
  have hfb : 0 ≤ lddtFallback model ref cutoff thresholds := by
    unfold lddtFallback; split <;> apply lddtCore_nonneg
  unfold computeLddt
  match ap with
  | none => exact hfb
  | some ps =>
    simp only
    split
    · split
      · exact le_refl 0
      · split
        · exact hfb
        · apply lddtCore_nonneg
    · exact hfb

lemma detM_mulM (A B : Mat3) : detM (mulM A B) = detM A * detM B := by
  obtain ⟨⟨a, b, c⟩, ⟨d, e, f⟩, ⟨g, h, i⟩⟩ := A
  obtain ⟨⟨j, k, l⟩, ⟨m, n, o⟩, ⟨p, q, r⟩⟩ := B
  simp only [mulM, transposeM, detM, vdot]
  ring

lemma detM_transposeM (A : Mat3) : detM (transposeM A) = detM A := by
  obtain ⟨⟨a, b, c⟩, ⟨d, e, f⟩, ⟨g, h, i⟩⟩ := A
  simp only [transposeM, detM]
  ring

lemma detM_negLastRow (A : Mat3) : detM (negLastRow A) = -detM A := by
  obtain ⟨⟨a, b, c⟩, ⟨d, e, f⟩, ⟨g, h, i⟩⟩ := A
  simp only [negLastRow, vneg, detM]
  ring

lemma detM_rotationFromSvd (U Vt : Mat3) :
    detM (rotationFromSvd U Vt) = |detM Vt * detM U| := by
  unfold rotationFromSvd
  split
  · next hneg =>
    rw [detM_mulM, detM_transposeM, detM_transposeM, detM_negLastRow]
    rw [detM_mulM, detM_transposeM, detM_transposeM] at hneg
    rw [abs_of_neg hneg]
    ring
  · next hpos =>
    push_neg at hpos
    rw [detM_mulM, detM_transposeM, detM_transposeM] at hpos ⊢
    rw [abs_of_nonneg hpos]

lemma maxStep_spec (acc : Option ℚ) (x : ℚ) :
    ∃ u, maxStep acc x = some u ∧ x ≤ u ∧ (∀ m, acc = some m → m ≤ u)
      ∧ (u = x ∨ acc = some u) := by
  cases acc with
  | none => exact ⟨x, rfl, le_refl x, by simp, Or.inl rfl⟩
  | some m =>
    by_cases hmx : m < x
    · refine ⟨x, by simp [maxStep, hmx], le_refl x, ?_, Or.inl rfl⟩
      intro m' hm'
      cases hm'
      exact hmx.le
    · refine ⟨m, by simp [maxStep, hmx], le_of_not_lt hmx, ?_, Or.inr rfl⟩
      intro m' hm'
      cases hm'
      exact le_refl _

lemma maxStep_ne_none (acc : Option ℚ) (x : ℚ) : maxStep acc x ≠ none := by
  obtain ⟨u, hu, -⟩ := maxStep_spec acc x
  simp [hu]

lemma foldl_maxStep_none (l : List ℚ) (acc : Option ℚ) :
    l.foldl maxStep acc = none ↔ l = [] ∧ acc = none := by
  induction l generalizing acc with
  | nil => simp
  | cons x xs ih =>
    rw [List.foldl_cons, ih]
    simp [maxStep_ne_none]

lemma foldl_maxStep_some (l : List ℚ) (acc : Option ℚ) (v : ℚ)
    (h : l.foldl maxStep acc = some v) :
    (∀ w ∈ l, w ≤ v) ∧ (∀ u, acc = some u → u ≤ v) ∧ (v ∈ l ∨ acc = some v) := by
  induction l generalizing acc with
  | nil =>
    refine ⟨by simp, ?_, Or.inr (by simpa using h)⟩
    intro u hu
    simp only [List.foldl_nil] at h
    rw [hu] at h
    cases h
    exact le_refl _
  | cons x xs ih =>
    rw [List.foldl_cons] at h
    obtain ⟨u, hu, hxu, hmono, hcase⟩ := maxStep_spec acc x
    obtain ⟨h1, h2, h3⟩ := ih (maxStep acc x) h
    have huv : u ≤ v := h2 u hu
    refine ⟨?_, ?_, ?_⟩
    · intro w hw
      rcases List.mem_cons.mp hw with rfl | hw'
      · exact le_trans hxu huv
      · exact h1 w hw'
    · intro m hm
      exact le_trans (hmono m hm) huv
    · rcases h3 with hv | hv
      · exact Or.inl (List.mem_cons_of_mem _ hv)
      · rw [hu] at hv
        cases hv
        rcases hcase with rfl | hacc
        · exact Or.inl (List.mem_cons_self _ _)
        · exact Or.inr hacc

/-- Claim C1: for binder problems the primary_score/primary_metric pair is
selected by strict first-available priority — binder-chain TM-score, else
complex TM-score, else monomer TM-score, else the largest off-diagonal
`chain_pair_iptm` entry, else `iptm`, else `ranking_score`; exactly one tier
is chosen and no averaging occurs.  The selection equals the spec's
first-available policy, and the `chain_pair_iptm` tier really is the largest
off-diagonal entry. -/
theorem binder_primary_score_priority :
    (∀ m : BinderScores, selectBinderPrimary m = specBinderPrimary m)
    ∧ (∀ (rows : List (List (Option ℚ))) (v : ℚ), maxOffDiag (some rows) = some v →
        v ∈ offDiagEntries rows ∧ ∀ w ∈ offDiagEntries rows, w ≤ v)
    ∧ (∀ rows : List (List (Option ℚ)),
        maxOffDiag (some rows) = none ↔ offDiagEntries rows = []) := by
  refine ⟨?_, ?_, ?_⟩
  · rintro ⟨b, c, t, cp, ip, rk⟩
    cases b <;> cases c <;> cases t <;> cases ip <;> cases h : maxOffDiag cp <;>
      simp [selectBinderPrimary, specBinderPrimary, firstAvailable, h]
  · intro rows v h
    have h' : (if rows = [] then (none : Option ℚ)
        else (offDiagEntries rows).foldl maxStep none) = some v := h
    by_cases hrows : rows = []
    · simp [hrows] at h'
    · rw [if_neg hrows] at h'
      obtain ⟨h1, -, h3⟩ := foldl_maxStep_some _ _ _ h'
      rcases h3 with h3 | h3
      · exact ⟨h3, h1⟩
      · cases h3
  · intro rows
    have h' : maxOffDiag (some rows) = (if rows = [] then (none : Option ℚ)
        else (offDiagEntries rows).foldl maxStep none) := rfl
    by_cases hrows : rows = []
    · subst hrows
      exact ⟨fun _ => rfl, fun _ => rfl⟩
    · rw [h', if_neg hrows, foldl_maxStep_none]
      simp

theorem binder_primary_score_priority_witness :
    selectBinderPrimary ⟨none, none, none,
        some [[none, some (1/2)], [some (3/10), none]], none, some (9/10)⟩
      = specBinderPrimary ⟨none, none, none,
        some [[none, some (1/2)], [some (3/10), none]], none, some (9/10)⟩
    ∧ ((1 : ℚ)/2 ∈ offDiagEntries [[none, some (1/2)], [some (3/10), none]]
        ∧ ∀ w ∈ offDiagEntries [[none, some (1/2)], [some (3/10), none]], w ≤ 1/2) := by
  refine ⟨binder_primary_score_priority.1 _, binder_primary_score_priority.2.1 _ _ ?_⟩
  have h1 : maxOffDiag (some [[none, some ((1 : ℚ)/2)], [some ((3 : ℚ)/10), none]])
      = [(1 : ℚ)/2, (3 : ℚ)/10].foldl maxStep none := rfl
  rw [h1]
  simp only [List.foldl_cons, List.foldl_nil, maxStep]
  norm_num

/-- Claim C2: when a nonempty alignment is used for lDDT, the reported
coverage equals `len(aligned_pairs) / len(ref_coords)` and the
coverage-weighted score equals `lddt_score * coverage`; for the fixed
(nonnegative) underlying score the weighted score is monotone non-decreasing
in coverage and equals the unweighted score at coverage 1. -/
theorem lddt_coverage_weighting (model ref : List Vec3) (ps : List (ℕ × ℕ))
    (hps : ps ≠ []) (c c' : ℚ) (hcc : c ≤ c') :
    (lddtWithCoverage model ref (some ps)).coverage
        = some ((ps.length : ℚ) / (ref.length : ℚ))
    ∧ (lddtWithCoverage model ref (some ps)).bbLddtCov
        = some (computeLddt model ref 15 defaultThresholds (some ps)
            * ((ps.length : ℚ) / (ref.length : ℚ)))
    ∧ computeLddt model ref 15 defaultThresholds (some ps) * c
        ≤ computeLddt model ref 15 defaultThresholds (some ps) * c'
    ∧ computeLddt model ref 15 defaultThresholds (some ps) * 1
        = computeLddt model ref 15 defaultThresholds (some ps) := by
  have hlen : 0 < ps.length := List.length_pos.mpr hps
  refine ⟨?_, ?_, ?_, mul_one _⟩
  · simp [lddtWithCoverage, hlen]
  · simp [lddtWithCoverage, hlen]
  · exact mul_le_mul_of_nonneg_left hcc (computeLddt_nonneg model ref 15 defaultThresholds (some ps))

theorem lddt_coverage_weighting_witness :
    (lddtWithCoverage [⟨0,0,0⟩] [⟨0,0,0⟩] (some [(0,0)])).coverage
        = some (((1 : ℕ) : ℚ) / ((1 : ℕ) : ℚ))
    ∧ (lddtWithCoverage [⟨0,0,0⟩] [⟨0,0,0⟩] (some [(0,0)])).bbLddtCov
        = some (computeLddt [⟨0,0,0⟩] [⟨0,0,0⟩] 15 defaultThresholds (some [(0,0)])
            * (((1 : ℕ) : ℚ) / ((1 : ℕ) : ℚ)))
    ∧ computeLddt [⟨0,0,0⟩] [⟨0,0,0⟩] 15 defaultThresholds (some [(0,0)]) * 0
        ≤ computeLddt [⟨0,0,0⟩] [⟨0,0,0⟩] 15 defaultThresholds (some [(0,0)]) * 1
    ∧ computeLddt [⟨0,0,0⟩] [⟨0,0,0⟩] 15 defaultThresholds (some [(0,0)]) * 1
        = computeLddt [⟨0,0,0⟩] [⟨0,0,0⟩] 15 defaultThresholds (some [(0,0)]) := by
  have h := lddt_coverage_weighting [⟨0,0,0⟩] [⟨0,0,0⟩] [(0,0)]
    (by simp) 0 1 (by norm_num)
  simpa using h

/-- Claim C3 (amended): `compute_global_rmsd` never fails with an
"insufficient points for superposition" condition — no such path exists.
When either coordinate array is empty it returns a record with null
`global_rmsd`/`aligned_rmsd` and `n_aligned = 0`; for any nonempty inputs
(including a single usable pair) it produces numeric values for both. -/
theorem global_rmsd_degenerate_behavior (svd : Mat3 → Mat3 × Mat3)
    (model ref : List Vec3) (ap : Option (List (ℕ × ℕ))) :
    ((model = [] ∨ ref = []) →
      computeGlobalRmsd svd model ref ap = ⟨none, none, model.length, ref.length, 0⟩)
    ∧ (model ≠ [] → ref ≠ [] →
      (computeGlobalRmsd svd model ref ap).globalMsd.isSome
      ∧ (computeGlobalRmsd svd model ref ap).alignedMsd.isSome) := by
  constructor
  · intro h
    have hz : model.length = 0 ∨ ref.length = 0 := by
      rcases h with h | h
      · exact Or.inl (by simp [h])
      · exact Or.inr (by simp [h])
    simp only [computeGlobalRmsd]
    rw [if_pos hz]
  · intro h1 h2
    have hz : ¬(model.length = 0 ∨ ref.length = 0) := by
      push_neg
      exact ⟨by simpa [List.length_eq_zero] using h1, by simpa [List.length_eq_zero] using h2⟩
    constructor <;>
      · simp only [computeGlobalRmsd]
        rw [if_neg hz]
        rfl

theorem global_rmsd_degenerate_behavior_witness :
    computeGlobalRmsd (fun _ => (idM, idM)) [] [⟨0,0,0⟩] none
        = ⟨none, none, 0, 1, 0⟩
    ∧ ((computeGlobalRmsd (fun _ => (idM, idM)) [⟨0,0,0⟩] [⟨0,0,0⟩] none).globalMsd.isSome
        ∧ (computeGlobalRmsd (fun _ => (idM, idM)) [⟨0,0,0⟩] [⟨0,0,0⟩] none).alignedMsd.isSome) := by
  constructor
  · have h := (global_rmsd_degenerate_behavior (fun _ => (idM, idM)) [] [⟨0,0,0⟩] none).1
      (Or.inl rfl)
    simpa using h
  · exact (global_rmsd_degenerate_behavior (fun _ => (idM, idM)) [⟨0,0,0⟩] [⟨0,0,0⟩] none).2
      (by simp) (by simp)

theorem global_rmsd_single_pair_produces_result :
    (computeGlobalRmsd (fun _ => (idM, idM)) [⟨0,0,0⟩] [⟨1,0,0⟩] none).alignedMsd = some 0
    ∧ (computeGlobalRmsd (fun _ => (idM, idM)) [⟨0,0,0⟩] [⟨1,0,0⟩] none).globalMsd = some 0 := by
  norm_num [computeGlobalRmsd, usablePairs, centroid, covarianceH, outer, maddM, zeroM,
    msd, rotationFromSvd, mulM, transposeM, negLastRow, detM, vdot, vadd, vsub, vsmul,
    matVec, idM, sqDistV, v0]

/-- Claim C8: the reflection correction of the superposition step — negate
the last row of `Vt` and recompute when `det(Vt^T U^T) < 0` — makes the
determinant of the applied rotation `|det Vt * det U|`, hence never −1 for
any SVD output, and exactly +1 whenever `U` and `Vt` have determinant ±1 (as
genuine orthogonal SVD factors do, mirror-image inputs included). -/
theorem reflection_correction_proper_rotation (U Vt : Mat3) :
    0 ≤ detM (rotationFromSvd U Vt)
    ∧ detM (rotationFromSvd U Vt) ≠ -1
    ∧ ((detM U = 1 ∨ detM U = -1) → (detM Vt = 1 ∨ detM Vt = -1) →
        detM (rotationFromSvd U Vt) = 1) := by
  have habs := detM_rotationFromSvd U Vt
  have h0 : 0 ≤ detM (rotationFromSvd U Vt) := by rw [habs]; exact abs_nonneg _
  refine ⟨h0, ?_, ?_⟩
  · intro h
    rw [h] at h0
    norm_num at h0
  · rintro (hU | hU) (hV | hV) <;> rw [habs, hU, hV] <;> norm_num

theorem reflection_correction_proper_rotation_witness :
    0 ≤ detM (rotationFromSvd idM ⟨⟨1,0,0⟩, ⟨0,1,0⟩, ⟨0,0,-1⟩⟩)
    ∧ detM (rotationFromSvd idM ⟨⟨1,0,0⟩, ⟨0,1,0⟩, ⟨0,0,-1⟩⟩) ≠ -1
    ∧ detM (rotationFromSvd idM ⟨⟨1,0,0⟩, ⟨0,1,0⟩, ⟨0,0,-1⟩⟩) = 1 := by
  have h := reflection_correction_proper_rotation idM ⟨⟨1,0,0⟩, ⟨0,1,0⟩, ⟨0,0,-1⟩⟩
  exact ⟨h.1, h.2.1, h.2.2 (by norm_num [detM, idM]) (by norm_num [detM])⟩

lemma mem_allPairs {n : ℕ} {p : ℕ × ℕ} (h : p ∈ allPairs n) : p.1 < n ∧ p.2 < n := by
  unfold allPairs at h
  simp only [List.mem_flatMap, List.mem_map, List.mem_range] at h
  obtain ⟨i, hi, j, hj, rfl⟩ := h
  exact ⟨hi, hj⟩

lemma lddtMaskedPairs_length_ge_two (ref : List Vec3) (cutoff : ℚ)
    (h : lddtMaskedPairs ref cutoff ≠ []) : 2 ≤ ref.length := by
  obtain ⟨p, hp⟩ := List.exists_mem_of_ne_nil _ h
  have hmem := List.mem_filter.mp hp
  obtain ⟨h1, h2⟩ := mem_allPairs hmem.1
  have hmask := hmem.2
  unfold lddtMaskB at hmask
  simp only [Bool.and_eq_true, distPosB, decide_eq_true_eq] at hmask
  have hpos : 0 < sqDistV (ref.getD p.1 v0) (ref.getD p.2 v0) := hmask.1.2
  have hne : p.1 ≠ p.2 := by
    intro he
    rw [he, sqDistV_self] at hpos
    exact lt_irrefl 0 hpos
  omega

/-- Claim C7 (amended): `compute_lddt(S, S)` with no correspondence and equal
lengths returns exactly 1.0 whenever at least one reference pair survives
the lDDT mask (some non-adjacent pair at distance strictly between 0 and the
cutoff); structures where no pair survives — in particular those with fewer
than 3 residues — score 0.0 instead. -/
theorem lddt_self_identity (S : List Vec3) (h : lddtMaskedPairs S 15 ≠ []) :
    computeLddt S S 15 defaultThresholds none = 1 := by
  have hfb : computeLddt S S 15 defaultThresholds none
      = lddtCore S S 15 defaultThresholds := by
    simp [computeLddt, lddtFallback]
  rw [hfb]
  have hlen2 : ¬(S.length < 2) := by
    have := lddtMaskedPairs_length_ge_two S 15 h
    omega
  unfold lddtCore
  rw [if_neg hlen2, if_neg h]
  have hL : ((lddtMaskedPairs S 15).length : ℚ) ≠ 0 := by
    have : (lddtMaskedPairs S 15).length ≠ 0 := by
      intro hc
      exact h (List.length_eq_zero.mp hc)
    exact_mod_cast this
  have hmap : (defaultThresholds.map fun t =>
        (((lddtMaskedPairs S 15).countP fun p =>
            diffLtB (sqDistV (S.getD p.1 v0) (S.getD p.2 v0))
              (sqDistV (S.getD p.1 v0) (S.getD p.2 v0)) t : ℕ) : ℚ)
          / ((lddtMaskedPairs S 15).length : ℚ))
      = defaultThresholds.map fun _ => (1 : ℚ) := by
    apply List.map_congr_left
    intro t ht
    have htne : t ≠ 0 := by
      have hmem : t = 1/2 ∨ t = 1 ∨ t = 2 ∨ t = 4 := by
        simpa [defaultThresholds] using ht
      rcases hmem with rfl | rfl | rfl | rfl <;> norm_num
    have hcount : ((lddtMaskedPairs S 15).countP fun p =>
        diffLtB (sqDistV (S.getD p.1 v0) (S.getD p.2 v0))
          (sqDistV (S.getD p.1 v0) (S.getD p.2 v0)) t) = (lddtMaskedPairs S 15).length := by
      apply List.countP_eq_length.mpr
      intro q hq
      exact diffLtB_self _ _ htne
    rw [hcount, div_self hL]
  rw [hmap]
  norm_num [defaultThresholds]

theorem lddt_self_identity_witness :
    lddtMaskedPairs [⟨0,0,0⟩, ⟨1,0,0⟩, ⟨2,0,0⟩] 15 ≠ []
    ∧ computeLddt [⟨0,0,0⟩, ⟨1,0,0⟩, ⟨2,0,0⟩] [⟨0,0,0⟩, ⟨1,0,0⟩, ⟨2,0,0⟩]
        15 defaultThresholds none = 1 := by
  have hmasked : lddtMaskedPairs [⟨0,0,0⟩, ⟨1,0,0⟩, ⟨2,0,0⟩] 15 = [(0,2), (2,0)] := by
    norm_num [lddtMaskedPairs, allPairs, lddtMaskB, sqDistV, distLtB, distPosB, v0,
      List.range_succ]
  have hne : lddtMaskedPairs [⟨0,0,0⟩, ⟨1,0,0⟩, ⟨2,0,0⟩] 15 ≠ [] := by
    rw [hmasked]; simp
  exact ⟨hne, lddt_self_identity _ hne⟩

/-- C7 counterexample: a one-residue structure scores 0, not 1, against
itself. -/
theorem lddt_self_singleton_not_one :
    computeLddt [⟨0,0,0⟩] [⟨0,0,0⟩] 15 defaultThresholds none = 0
    ∧ computeLddt [⟨0,0,0⟩] [⟨0,0,0⟩] 15 defaultThresholds none ≠ 1 := by
  constructor
  · norm_num [computeLddt, lddtFallback, lddtCore]
  · norm_num [computeLddt, lddtFallback, lddtCore]

lemma seed_le_foldl_max (f : ℕ × ℕ → ℕ) :
    ∀ (ps : List (ℕ × ℕ)) (a : ℕ), a ≤ ps.foldl (fun m p => max m (f p)) a := by
  intro ps
  induction ps with
  | nil => intro a; exact le_refl a
  | cons x xs ih => intro a; exact le_trans (le_max_left a (f x)) (ih (max a (f x)))

lemma mem_le_foldl_max (f : ℕ × ℕ → ℕ) :
    ∀ (ps : List (ℕ × ℕ)) (a : ℕ) (p : ℕ × ℕ), p ∈ ps →
      f p ≤ ps.foldl (fun m p => max m (f p)) a := by
  intro ps
  induction ps with
  | nil => intro a p hp; cases hp
  | cons x xs ih =>
    intro a p hp
    rcases List.mem_cons.mp hp with rfl | hp'
    · exact le_trans (le_max_right a (f p)) (seed_le_foldl_max f xs (max a (f p)))
    · exact ih (max a (f x)) p hp'

lemma le_maxFst {ps : List (ℕ × ℕ)} {p : ℕ × ℕ} (hp : p ∈ ps) : p.1 ≤ maxFst ps :=
  mem_le_foldl_max Prod.fst ps 0 p hp

lemma le_maxSnd {ps : List (ℕ × ℕ)} {p : ℕ × ℕ} (hp : p ∈ ps) : p.2 ≤ maxSnd ps :=
  mem_le_foldl_max Prod.snd ps 0 p hp

/-- Claim C5 (amended): for a supplied correspondence with at least 2 pairs
whose maximum model or reference index is out of range, both `compute_lddt`
and `compute_global_rmsd` detect the violation before any indexing and fall
back to truncated index-based pairing.  A 1-pair correspondence, in
contrast, short-circuits: `compute_lddt` returns 0.0 (without detecting the
violation or falling back) while `compute_global_rmsd` truncates.  When the
bounds check passes, every index subsequently used is in range, so no
out-of-bounds coordinate access happens in any case. -/
theorem oob_correspondence_handling :
    (∀ (model ref : List Vec3) (ps : List (ℕ × ℕ)), 2 ≤ ps.length →
      (model.length ≤ maxFst ps ∨ ref.length ≤ maxSnd ps) →
      computeLddt model ref 15 defaultThresholds (some ps)
        = lddtFallback model ref 15 defaultThresholds)
    ∧ (∀ (svd : Mat3 → Mat3 × Mat3) (model ref : List Vec3) (ps : List (ℕ × ℕ)),
      2 ≤ ps.length → (model.length ≤ maxFst ps ∨ ref.length ≤ maxSnd ps) →
      computeGlobalRmsd svd model ref (some ps) = computeGlobalRmsd svd model ref none)
    ∧ (∀ (model ref : List Vec3) (ps : List (ℕ × ℕ)), ps.length = 1 →
      computeLddt model ref 15 defaultThresholds (some ps) = 0)
    ∧ (∀ (svd : Mat3 → Mat3 × Mat3) (model ref : List Vec3) (ps : List (ℕ × ℕ)),
      ps.length = 1 →
      computeGlobalRmsd svd model ref (some ps) = computeGlobalRmsd svd model ref none)
    ∧ (∀ (model ref : List Vec3) (ps : List (ℕ × ℕ)),
      ¬(model.length ≤ maxFst ps) → ¬(ref.length ≤ maxSnd ps) →
      ∀ p ∈ ps, p.1 < model.length ∧ p.2 < ref.length) := by
  refine ⟨?_, ?_, ?_, ?_, ?_⟩
  · intro model ref ps hlen hoob
    simp only [computeLddt]
    rw [if_pos (by omega : 0 < ps.length), if_neg (by omega : ¬ps.length < 2),
      if_pos hoob]
  · intro svd model ref ps hlen hoob
    have h1 : usablePairs model ref (some ps) = usablePairs model ref none := by
      simp only [usablePairs]
      rw [if_pos (by omega : 1 < ps.length), if_pos hoob]
    simp only [computeGlobalRmsd, h1]
  · intro model ref ps hlen
    simp only [computeLddt]
    rw [if_pos (by omega : 0 < ps.length), if_pos (by omega : ps.length < 2)]
  · intro svd model ref ps hlen
    have h1 : usablePairs model ref (some ps) = usablePairs model ref none := by
      simp only [usablePairs]
      rw [if_neg (by omega : ¬1 < ps.length)]
    simp only [computeGlobalRmsd, h1]
  · intro model ref ps h1 h2 p hp
    exact ⟨lt_of_le_of_lt (le_maxFst hp) (by omega),
      lt_of_le_of_lt (le_maxSnd hp) (by omega)⟩

theorem oob_correspondence_handling_witness :
    computeLddt [⟨0,0,0⟩] [⟨0,0,0⟩] 15 defaultThresholds (some [(7,0), (8,0)])
        = lddtFallback [⟨0,0,0⟩] [⟨0,0,0⟩] 15 defaultThresholds
    ∧ computeGlobalRmsd (fun _ => (idM, idM)) [⟨0,0,0⟩] [⟨0,0,0⟩] (some [(7,0), (8,0)])
        = computeGlobalRmsd (fun _ => (idM, idM)) [⟨0,0,0⟩] [⟨0,0,0⟩] none
    ∧ computeLddt [⟨0,0,0⟩] [⟨0,0,0⟩] 15 defaultThresholds (some [(0,0)]) = 0
    ∧ computeGlobalRmsd (fun _ => (idM, idM)) [⟨0,0,0⟩] [⟨0,0,0⟩] (some [(0,0)])
        = computeGlobalRmsd (fun _ => (idM, idM)) [⟨0,0,0⟩] [⟨0,0,0⟩] none
    ∧ (∀ p ∈ [((0 : ℕ), (0 : ℕ))], p.1 < 1 ∧ p.2 < 1) := by
  refine ⟨?_, ?_, ?_, ?_, ?_⟩
  · exact oob_correspondence_handling.1 _ _ _ (by decide)
      (by left; simp [maxFst, List.foldl])
  · exact oob_correspondence_handling.2.1 _ _ _ _ (by decide)
      (by left; simp [maxFst, List.foldl])
  · exact oob_correspondence_handling.2.2.1 _ _ _ (by decide)
  · exact oob_correspondence_handling.2.2.2.1 _ _ _ _ (by decide)
  · have h := oob_correspondence_handling.2.2.2.2 [⟨0,0,0⟩] [⟨0,0,0⟩] [((0 : ℕ), (0 : ℕ))]
      (by simp [maxFst, List.foldl]) (by simp [maxSnd, List.foldl])
    exact h

/-- C5 counterexample: a 1-pair out-of-bounds correspondence makes
`compute_lddt` return 0.0 instead of the truncation-fallback score 1.0. -/
theorem single_pair_oob_returns_zero :
    computeLddt [⟨0,0,0⟩, ⟨1,0,0⟩, ⟨2,0,0⟩] [⟨0,0,0⟩, ⟨1,0,0⟩, ⟨2,0,0⟩]
        15 defaultThresholds (some [(5,0)]) = 0
    ∧ computeLddt [⟨0,0,0⟩, ⟨1,0,0⟩, ⟨2,0,0⟩] [⟨0,0,0⟩, ⟨1,0,0⟩, ⟨2,0,0⟩]
        15 defaultThresholds none = 1 := by
  constructor
  · norm_num [computeLddt]
  · have hmasked : lddtMaskedPairs [⟨0,0,0⟩, ⟨1,0,0⟩, ⟨2,0,0⟩] 15 = [(0,2), (2,0)] := by
      norm_num [lddtMaskedPairs, allPairs, lddtMaskB, sqDistV, distLtB, distPosB, v0,
        List.range_succ]
    norm_num [computeLddt, lddtFallback, lddtCore, hmasked, sqDistV, diffLtB,
      sqrtLtSqrtAddB, defaultThresholds, v0]
    decide

/-- Claim C4 (amended): `compute_lddt` and `compute_global_rmsd` never hard
fail on an out-of-bounds (≥ 2 pairs) or missing correspondence — both apply
the documented min-length truncation fallback and still produce a result.
`compute_interface_lddt`, however, returns the error "Chain length mismatch
and no alignment provided" and a null score when the chain lengths mismatch
and no alignment was supplied: the truncation fallback is not applied
there. -/
theorem correspondence_fallback_behavior :
    (∀ (model ref : List Vec3) (ps : List (ℕ × ℕ)), 2 ≤ ps.length →
      (model.length ≤ maxFst ps ∨ ref.length ≤ maxSnd ps) →
      computeLddt model ref 15 defaultThresholds (some ps)
        = computeLddt model ref 15 defaultThresholds none)
    ∧ (∀ model ref : List Vec3,
      computeLddt model ref 15 defaultThresholds none
        = lddtFallback model ref 15 defaultThresholds)
    ∧ (∀ (svd : Mat3 → Mat3 × Mat3) (model ref : List Vec3) (ps : List (ℕ × ℕ)),
      2 ≤ ps.length → (model.length ≤ maxFst ps ∨ ref.length ≤ maxSnd ps) →
      computeGlobalRmsd svd model ref (some ps) = computeGlobalRmsd svd model ref none)
    ∧ (∀ (mA mB rA rB : List Vec3) (icut lcut : ℚ) (ths : List ℚ),
      rA ≠ [] → rB ≠ [] → (mA.length ≠ rA.length ∨ mB.length ≠ rB.length) →
      computeInterfaceLddt mA mB rA rB icut lcut ths none none
        = some ⟨none, 0, 0, 0,
            some "Chain length mismatch and no alignment provided"⟩) := by
  refine ⟨?_, ?_, ?_, ?_⟩
  · intro model ref ps hlen hoob
    simp only [computeLddt]
    rw [if_pos (by omega : 0 < ps.length), if_neg (by omega : ¬ps.length < 2),
      if_pos hoob]
  · intro model ref
    simp only [computeLddt]
  · intro svd model ref ps hlen hoob
    have h1 : usablePairs model ref (some ps) = usablePairs model ref none := by
      simp only [usablePairs]
      rw [if_pos (by omega : 1 < ps.length), if_pos hoob]
    simp only [computeGlobalRmsd, h1]
  · intro mA mB rA rB icut lcut ths hrA hrB hmis
    have h0 : ¬(rA.length = 0 ∨ rB.length = 0) := by
      push_neg
      exact ⟨by simpa [List.length_eq_zero] using hrA,
        by simpa [List.length_eq_zero] using hrB⟩
    simp only [computeInterfaceLddt]
    rw [if_neg h0, if_pos hmis]

theorem correspondence_fallback_behavior_witness :
    computeLddt [⟨0,0,0⟩] [⟨0,0,0⟩] 15 defaultThresholds (some [(9,0), (10,0)])
        = computeLddt [⟨0,0,0⟩] [⟨0,0,0⟩] 15 defaultThresholds none
    ∧ computeLddt [⟨0,0,0⟩] [⟨1,0,0⟩] 15 defaultThresholds none
        = lddtFallback [⟨0,0,0⟩] [⟨1,0,0⟩] 15 defaultThresholds
    ∧ computeGlobalRmsd (fun _ => (idM, idM)) [⟨0,0,0⟩] [⟨0,0,0⟩] (some [(9,0), (10,0)])
        = computeGlobalRmsd (fun _ => (idM, idM)) [⟨0,0,0⟩] [⟨0,0,0⟩] none
    ∧ computeInterfaceLddt [⟨0,0,0⟩, ⟨1,1,1⟩] [⟨4,0,0⟩] [⟨0,0,0⟩] [⟨4,0,0⟩]
        8 15 defaultThresholds none none
        = some ⟨none, 0, 0, 0,
            some "Chain length mismatch and no alignment provided"⟩ := by
  refine ⟨?_, ?_, ?_, ?_⟩
  · exact correspondence_fallback_behavior.1 _ _ _ (by decide)
      (by left; simp [maxFst, List.foldl])
  · exact correspondence_fallback_behavior.2.1 _ _
  · exact correspondence_fallback_behavior.2.2.1 _ _ _ _ (by decide)
      (by left; simp [maxFst, List.foldl])
  · exact correspondence_fallback_behavior.2.2.2 _ _ _ _ 8 15 defaultThresholds
      (by simp) (by simp) (by left; simp)

/-- C4 counterexample: interface lDDT with mismatched chain lengths and no
correspondence fails with an error and produces no score, instead of falling
back to truncation. -/
theorem interface_lddt_missing_alignment_error :
    computeInterfaceLddt [⟨0,0,0⟩, ⟨1,1,1⟩] [⟨4,0,0⟩] [⟨0,0,0⟩] [⟨4,0,0⟩]
        8 15 defaultThresholds none none
      = some ⟨none, 0, 0, 0,
          some "Chain length mismatch and no alignment provided"⟩ := by
  norm_num [computeInterfaceLddt]

lemma identifyInterfaceResidues_eq (a b : List Vec3) (cutoff : ℚ)
    (h0 : ¬(a.length = 0 ∨ b.length = 0)) :
    identifyInterfaceResidues a b cutoff
      = ((List.range a.length).map fun i =>
          (List.range b.length).any fun j =>
            distLtB (sqDistV (a.getD i v0) (b.getD j v0)) cutoff,
         (List.range b.length).map fun j =>
          (List.range a.length).any fun i =>
            distLtB (sqDistV (a.getD i v0) (b.getD j v0)) cutoff) := by
  simp only [identifyInterfaceResidues]
  rw [if_neg h0]

lemma count_true_eq_zero_iff (f : ℕ → Bool) (n : ℕ) :
    ((List.range n).map f).count true = 0 ↔ ∀ i < n, f i = false := by
  rw [List.count_eq_zero]
  simp only [List.mem_map, List.mem_range, not_exists, not_and]
  constructor
  · intro h i hi
    have := h i hi
    cases hfi : f i
    · rfl
    · exact absurd hfi this
  · intro h i hi hfi
    rw [h i hi] at hfi
    cases hfi

lemma any_map_range (f : ℕ → Bool) (n : ℕ) :
    ((List.range n).map f).any id = true ↔ ∃ i < n, f i = true := by
  simp [List.any_eq_true, List.mem_map, List.mem_range]

lemma any_range (g : ℕ → Bool) (m : ℕ) :
    (List.range m).any g = true ↔ ∃ j < m, g j = true := by
  simp [List.any_eq_true, List.mem_range]

/-- Claim C10: for non-empty chains and a positive cutoff the two interface
masks of `identify_interface_residues` are linked — chain A's mask has a set
entry iff chain B's does, since both threshold the same cross-chain distance
matrix — and consequently the "No interface residues found" error of
`compute_interface_lddt` triggers exactly when no cross-chain residue pair
lies within the cutoff. -/
theorem interface_masks_linked (a b : List Vec3) (cutoff : ℚ)
    (ha : a ≠ []) (hb : b ≠ []) (_hc : 0 < cutoff) :
    ((identifyInterfaceResidues a b cutoff).1.any id = true
      ↔ (identifyInterfaceResidues a b cutoff).2.any id = true)
    ∧ (((identifyInterfaceResidues a b cutoff).1.count true = 0
        ∧ (identifyInterfaceResidues a b cutoff).2.count true = 0)
      ↔ ∀ i < a.length, ∀ j < b.length,
          distLtB (sqDistV (a.getD i v0) (b.getD j v0)) cutoff = false)
    ∧ (∀ mA mB : List Vec3, mA.length = a.length → mB.length = b.length →
        ((computeInterfaceLddt mA mB a b cutoff 15 defaultThresholds none none).map
              InterfaceResult.error
            = some (some "No interface residues found")
          ↔ ∀ i < a.length, ∀ j < b.length,
              distLtB (sqDistV (a.getD i v0) (b.getD j v0)) cutoff = false)) := by
  have h0 : ¬(a.length = 0 ∨ b.length = 0) := by
    push_neg
    exact ⟨by simpa [List.length_eq_zero] using ha,
      by simpa [List.length_eq_zero] using hb⟩
  have hid := identifyInterfaceResidues_eq a b cutoff h0
  have hany : ((identifyInterfaceResidues a b cutoff).1.any id = true
      ↔ (identifyInterfaceResidues a b cutoff).2.any id = true) := by
    rw [hid]
    simp only [any_map_range, any_range]
    constructor
    · rintro ⟨i, hi, j, hj, hd⟩
      exact ⟨j, hj, i, hi, hd⟩
    · rintro ⟨j, hj, i, hi, hd⟩
      exact ⟨i, hi, j, hj, hd⟩
  have hcnt : (((identifyInterfaceResidues a b cutoff).1.count true = 0
        ∧ (identifyInterfaceResidues a b cutoff).2.count true = 0)
      ↔ ∀ i < a.length, ∀ j < b.length,
          distLtB (sqDistV (a.getD i v0) (b.getD j v0)) cutoff = false) := by
    rw [hid]
    simp only [count_true_eq_zero_iff]
    constructor
    · intro h i hi j hj
      have h1 := h.1 i hi
      rw [List.any_eq_false] at h1
      have := h1 j (List.mem_range.mpr hj)
      simp only [Bool.not_eq_true] at this
      exact this
    · intro h
      constructor
      · intro i hi
        rw [List.any_eq_false]
        intro j hj
        simp only [Bool.not_eq_true]
        exact h i hi j (List.mem_range.mp hj)
      · intro j hj
        rw [List.any_eq_false]
        intro i hi
        simp only [Bool.not_eq_true]
        exact h i (List.mem_range.mp hi) j hj
  refine ⟨hany, hcnt, ?_⟩
  intro mA mB hmA hmB
  have hmis : ¬(mA.length ≠ a.length ∨ mB.length ≠ b.length) := by
    push_neg
    exact ⟨hmA, hmB⟩
  have herr : (computeInterfaceLddt mA mB a b cutoff 15 defaultThresholds none none).map
        InterfaceResult.error
      = (if (identifyInterfaceResidues a b cutoff).1.count true = 0
            ∧ (identifyInterfaceResidues a b cutoff).2.count true = 0
          then some (some "No interface residues found") else some none) := by
    simp only [computeInterfaceLddt]
    rw [if_neg h0, if_neg hmis]
    split
    · rfl
    · rfl
  rw [herr]
  by_cases hz : (identifyInterfaceResidues a b cutoff).1.count true = 0
      ∧ (identifyInterfaceResidues a b cutoff).2.count true = 0
  · rw [if_pos hz]
    exact ⟨fun _ => hcnt.mp hz, fun _ => rfl⟩
  · rw [if_neg hz]
    exact ⟨fun hcon => Option.noConfusion (Option.some.inj hcon),
      fun hall => absurd (hcnt.mpr hall) hz⟩

theorem interface_masks_linked_witness :
    ((identifyInterfaceResidues [⟨0,0,0⟩] [⟨4,0,0⟩] 8).1.any id = true
      ↔ (identifyInterfaceResidues [⟨0,0,0⟩] [⟨4,0,0⟩] 8).2.any id = true)
    ∧ ((computeInterfaceLddt [⟨0,0,0⟩] [⟨4,0,0⟩] [⟨0,0,0⟩] [⟨4,0,0⟩]
          8 15 defaultThresholds none none).map InterfaceResult.error
          = some (some "No interface residues found")
        ↔ ∀ i < ([⟨0,0,0⟩] : List Vec3).length, ∀ j < ([⟨4,0,0⟩] : List Vec3).length,
            distLtB (sqDistV (([⟨0,0,0⟩] : List Vec3).getD i v0)
              (([⟨4,0,0⟩] : List Vec3).getD j v0)) 8 = false) := by
  have h := interface_masks_linked [⟨0,0,0⟩] [⟨4,0,0⟩] 8
    (by simp) (by simp) (by norm_num)
  exact ⟨h.1, h.2.2 [⟨0,0,0⟩] [⟨4,0,0⟩] rfl rfl⟩

/-- Claim C9 (amended): for CIF input, `extract_chain_to_pdb` returns the
explicit "no atoms" failure (`False`) when zero atoms of the requested chain
are collected; for PDB input it returns `True` even when zero atoms match,
writing an empty-but-valid output instead of failing. -/
theorem extract_chain_zero_atoms_behavior :
    (∀ (lines : List (List Char)) (chain : List Char) (cols : List (List Char × ℕ)),
      cifCollect lines false [] [] chain = some (cols, []) →
      extractChainCif lines chain = false)
    ∧ (∀ (lines : List (List Char)) (chain : Char),
      (∀ l ∈ lines, lineStartsWithAtom l = true → 21 < l.length) →
      (extractChainPdb lines chain).1 = true) := by
  constructor
  · intro lines chain cols h
    unfold extractChainCif
    rw [h]
    simp
  · intro lines chain
    induction lines with
    | nil => intro _; rfl
    | cons l rest ih =>
      intro hwf
      have hrest : ∀ l' ∈ rest, lineStartsWithAtom l' = true → 21 < l'.length :=
        fun l' hl' => hwf l' (List.mem_cons_of_mem _ hl')
      have hstep : extractChainPdb (l :: rest) chain
          = (if lineStartsWithAtom l then
              (if 21 < l.length then
                (if l.getD 21 ' ' = chain then
                  ((extractChainPdb rest chain).1, l :: (extractChainPdb rest chain).2)
                else extractChainPdb rest chain)
              else (false, []))
            else if List.isPrefixOf "END".toList l then
              ((extractChainPdb rest chain).1, l :: (extractChainPdb rest chain).2)
            else extractChainPdb rest chain) := rfl
      rw [hstep]
      by_cases hatom : lineStartsWithAtom l = true
      · have hlen : 21 < l.length := hwf l (List.mem_cons_self _ _) hatom
        rw [if_pos hatom, if_pos hlen]
        by_cases hch : l.getD 21 ' ' = chain
        · rw [if_pos hch]
          exact ih hrest
        · rw [if_neg hch]
          exact ih hrest
      · rw [if_neg hatom]
        split
        · exact ih hrest
        · exact ih hrest

theorem extract_chain_zero_atoms_behavior_witness :
    extractChainCif [] "A".toList = false
    ∧ (extractChainPdb ["END".toList] 'A').1 = true := by
  constructor
  · exact extract_chain_zero_atoms_behavior.1 [] "A".toList [] rfl
  · refine extract_chain_zero_atoms_behavior.2 ["END".toList] 'A' ?_
    intro l hl hatom
    simp only [List.mem_singleton] at hl
    subst hl
    exact absurd hatom (by decide)

/-- C9 counterexample: extracting an absent chain from a PDB file returns
success (`True`) with empty output instead of the "no atoms" failure. -/
theorem pdb_extract_zero_atoms_returns_true :
    extractChainPdb
      ["ATOM      1  CA  ALA B   1      11.000  12.000  13.000  1.00  0.00           C".toList]
      'A' = (true, []) := by
  decide

lemma countP_flatMap {α β : Type} (l : List α) (f : α → List β) (p : β → Bool) :
    (l.flatMap f).countP p = (l.map fun a => (f a).countP p).sum := by
  induction l with
  | nil => rfl
  | cons x xs ih => simp [List.flatMap_cons, List.countP_append, ih]

lemma sum_map_single (l : List ℕ) (hnd : l.Nodup) (g : ℕ → ℕ) (i : ℕ) (hi : i ∈ l)
    (hgi : g i = 1) (h0 : ∀ a ∈ l, a ≠ i → g a = 0) : (l.map g).sum = 1 := by
  induction l with
  | nil => cases hi
  | cons x xs ih =>
    have hnd' := List.nodup_cons.mp hnd
    simp only [List.map_cons, List.sum_cons]
    rcases List.mem_cons.mp hi with rfl | hi'
    · rw [hgi]
      have hx0 : (xs.map g).sum = 0 := by
        apply List.sum_eq_zero
        intro y hy
        simp only [List.mem_map] at hy
        obtain ⟨a, ha, rfl⟩ := hy
        exact h0 a (List.mem_cons_of_mem _ ha) (fun he => hnd'.1 (he ▸ ha))
      rw [hx0]
    · rw [h0 x (List.mem_cons_self _ _) (fun he => hnd'.1 (he ▸ hi')),
        ih hnd'.2 hi' (fun a ha hane => h0 a (List.mem_cons_of_mem _ ha) hane)]

lemma countP_flatMap_key {β : Type} (outer : List ℕ) (hnd : outer.Nodup)
    (innerF : ℕ → List ℕ) (mk : ℕ → ℕ → β) (key : β → Bool) (i j : ℕ)
    (hndi : (innerF i).Nodup) (hi : i ∈ outer) (hj : j ∈ innerF i)
    (hkey : ∀ a b, key (mk a b) = true ↔ (a = i ∧ b = j)) :
    ((outer.flatMap fun a => (innerF a).map (mk a)).countP key) = 1 := by
  rw [countP_flatMap]
  apply sum_map_single outer hnd _ i hi
  · rw [List.countP_map]
    have hcg : ∀ b ∈ innerF i, ((key ∘ mk i) b = true) ↔ ((b == j) = true) := by
      intro b _
      simp only [Function.comp, hkey, beq_iff_eq]
      tauto
    rw [List.countP_congr hcg]
    exact List.count_eq_one_of_mem hndi hj
  · intro a ha hane
    rw [List.countP_map]
    apply List.countP_eq_zero.mpr
    intro b _
    simp only [Function.comp]
    intro hk
    exact hane ((hkey a b).mp hk).1

lemma indicesWhere_nodup (mask : List Bool) : (indicesWhere mask).Nodup :=
  (List.nodup_range mask.length).filter _

lemma mem_indicesWhere {mask : List Bool} {i : ℕ} :
    i ∈ indicesWhere mask ↔ i < mask.length ∧ mask.getD i false = true := by
  simp [indicesWhere, List.mem_filter, List.mem_range]

lemma true_mem_of_getD {mask : List Bool} {i : ℕ} (hi : i < mask.length)
    (h : mask.getD i false = true) : true ∈ mask := by
  rw [List.getD_eq_getElem _ _ hi] at h
  exact h ▸ List.getElem_mem hi

lemma pair_beq_iff (a b i j : ℕ) : (((a, b) == (i, j)) = true) ↔ (a = i ∧ b = j) := by
  simp [beq_iff_eq, Prod.ext_iff]

lemma interfaceContactsEq_count_once (rA rB : List Vec3) (maskA maskB : List Bool)
    (lcut : ℚ) (i j : ℕ)
    (hiA : i < maskA.length) (hjB : j < maskB.length) (hj : j < rB.length)
    (hmi : maskA.getD i false = true) (hmj : maskB.getD j false = true)
    (hclose : closeCrossB rA rB lcut i j = true) :
    (interfaceContactsEq rA rB maskA maskB lcut).countP (fun q => q == (i, j)) = 1 := by
  unfold interfaceContactsEq
  rw [List.countP_append]
  have hA : (((indicesWhere maskA).flatMap fun i' =>
      (((List.range rB.length).filter fun j' => closeCrossB rA rB lcut i' j').map
        fun j' => (i', j'))).countP fun q => q == (i, j)) = 1 := by
    apply countP_flatMap_key _ (indicesWhere_nodup maskA) _ _ _ i j
      ((List.nodup_range rB.length).filter _)
      (mem_indicesWhere.mpr ⟨hiA, hmi⟩)
      (List.mem_filter.mpr ⟨List.mem_range.mpr hj, hclose⟩)
    intro a b
    exact pair_beq_iff a b i j
  have hB : (((indicesWhere maskB).flatMap fun j' =>
      (((List.range rA.length).filter fun i' =>
          !maskA.getD i' false && closeCrossB rA rB lcut i' j').map
        fun i' => (i', j'))).countP fun q => q == (i, j)) = 0 := by
    apply List.countP_eq_zero.mpr
    intro q hq
    simp only [List.mem_flatMap, List.mem_map, List.mem_filter] at hq
    obtain ⟨b, _, a, ⟨_, hcond⟩, rfl⟩ := hq
    intro hk
    obtain ⟨rfl, rfl⟩ := (pair_beq_iff a b i j).mp hk
    rw [Bool.and_eq_true, Bool.not_eq_true'] at hcond
    rw [hcond.1] at hmi
    cases hmi
  rw [hA, hB]

lemma interfaceContactsAln_count_once (rA rB : List Vec3) (maskA maskB : List Bool)
    (lcut : ℚ) (lookA lookB : ℕ → Option ℕ) (i j : ℕ)
    (hiA : i < maskA.length) (hjB : j < maskB.length) (hj : j < rB.length)
    (hmi : maskA.getD i false = true) (hmj : maskB.getD j false = true)
    (hclose : closeCrossB rA rB lcut i j = true)
    (hsi : (lookA i).isSome = true) (hsj : (lookB j).isSome = true) :
    (interfaceContactsAln rA rB maskA maskB lcut lookA lookB).countP
      (fun q => q.1 == (i, j)) = 1 := by
  unfold interfaceContactsAln
  rw [List.countP_append]
  have hA : ((((indicesWhere maskA).filter fun ri => (lookA ri).isSome).flatMap fun ri =>
      (((List.range rB.length).filter fun rj =>
          (lookB rj).isSome && closeCrossB rA rB lcut ri rj).map
        fun rj => ((ri, rj), ((lookA ri).getD 0, (lookB rj).getD 0)))).countP
      fun q => q.1 == (i, j)) = 1 := by
    apply countP_flatMap_key _ ((indicesWhere_nodup maskA).filter _) _ _ _ i j
      ((List.nodup_range rB.length).filter _)
      (List.mem_filter.mpr ⟨mem_indicesWhere.mpr ⟨hiA, hmi⟩, hsi⟩)
      (List.mem_filter.mpr ⟨List.mem_range.mpr hj, by rw [Bool.and_eq_true]; exact ⟨hsj, hclose⟩⟩)
    intro a b
    exact pair_beq_iff a b i j
  have hB : ((((indicesWhere maskB).filter fun rj => (lookB rj).isSome).flatMap fun rj =>
      (((List.range rA.length).filter fun ri =>
          !maskA.getD ri false && (lookA ri).isSome && closeCrossB rA rB lcut ri rj).map
        fun ri => ((ri, rj), ((lookA ri).getD 0, (lookB rj).getD 0)))).countP
      fun q => q.1 == (i, j)) = 0 := by
    apply List.countP_eq_zero.mpr
    intro q hq
    simp only [List.mem_flatMap, List.mem_map, List.mem_filter] at hq
    obtain ⟨b, _, a, ⟨_, hcond⟩, rfl⟩ := hq
    intro hk
    obtain ⟨rfl, rfl⟩ := (pair_beq_iff a b i j).mp hk
    rw [Bool.and_eq_true, Bool.and_eq_true, Bool.not_eq_true'] at hcond
    rw [hcond.1.1] at hmi
    cases hmi
  rw [hA, hB]

/-- Claim C6 (amended): a cross-chain reference pair under the lDDT cutoff
whose two residues are both interface residues is counted exactly once in
the contact enumeration (hence contributes exactly once to
`total_interface_contacts` and once to the preserved-fraction sum, which are
the length of and the sum over that enumeration) — in the matching-length
path unconditionally, and in the length-mismatch path provided both residues
have model counterparts under the per-chain correspondences; an unmapped
residue is skipped there, so such a pair contributes zero times.  (The
count equations over the result record hold when every counted contact maps
to in-range model indices; a correspondence mapping a counted contact out of
range makes the source raise `IndexError` — the function then returns no
record at all, `none` in the embedding.) -/
theorem interface_contact_counted_once (rA rB : List Vec3) (icut lcut : ℚ) (i j : ℕ)
    (hi : i < rA.length) (hj : j < rB.length)
    (hmi : (identifyInterfaceResidues rA rB icut).1.getD i false = true)
    (hmj : (identifyInterfaceResidues rA rB icut).2.getD j false = true)
    (hclose : closeCrossB rA rB lcut i j = true) :
    ((interfaceContactsEq rA rB (identifyInterfaceResidues rA rB icut).1
        (identifyInterfaceResidues rA rB icut).2 lcut).countP
      (fun q => q == (i, j)) = 1)
    ∧ (∀ lookA lookB : ℕ → Option ℕ, (lookA i).isSome = true → (lookB j).isSome = true →
        (interfaceContactsAln rA rB (identifyInterfaceResidues rA rB icut).1
            (identifyInterfaceResidues rA rB icut).2 lcut lookA lookB).countP
          (fun q => q.1 == (i, j)) = 1)
    ∧ (∀ mA mB : List Vec3, mA.length = rA.length → mB.length = rB.length →
        (computeInterfaceLddt mA mB rA rB icut lcut defaultThresholds
            none none).map InterfaceResult.totalInterfaceContacts
          = some (interfaceContactsEq rA rB (identifyInterfaceResidues rA rB icut).1
              (identifyInterfaceResidues rA rB icut).2 lcut).length)
    ∧ (∀ (mA mB : List Vec3) (psA psB : List (ℕ × ℕ)),
        (mA.length ≠ rA.length ∨ mB.length ≠ rB.length) →
        (((interfaceContactsAln rA rB (identifyInterfaceResidues rA rB icut).1
              (identifyInterfaceResidues rA rB icut).2 lcut
              (refToModel psA) (refToModel psB)).all
            (fun q => decide (q.2.1 < mA.length) && decide (q.2.2 < mB.length)) = true →
          (computeInterfaceLddt mA mB rA rB icut lcut defaultThresholds
              (some psA) (some psB)).map InterfaceResult.totalInterfaceContacts
            = some (interfaceContactsAln rA rB (identifyInterfaceResidues rA rB icut).1
                (identifyInterfaceResidues rA rB icut).2 lcut
                (refToModel psA) (refToModel psB)).length)
        ∧ ((interfaceContactsAln rA rB (identifyInterfaceResidues rA rB icut).1
              (identifyInterfaceResidues rA rB icut).2 lcut
              (refToModel psA) (refToModel psB)).all
            (fun q => decide (q.2.1 < mA.length) && decide (q.2.2 < mB.length)) = false →
          computeInterfaceLddt mA mB rA rB icut lcut defaultThresholds
              (some psA) (some psB) = none))) := by
  have h0 : ¬(rA.length = 0 ∨ rB.length = 0) := by push_neg; omega
  have hlenA : (identifyInterfaceResidues rA rB icut).1.length = rA.length := by
    rw [identifyInterfaceResidues_eq _ _ _ h0]
    simp
  have hlenB : (identifyInterfaceResidues rA rB icut).2.length = rB.length := by
    rw [identifyInterfaceResidues_eq _ _ _ h0]
    simp
  have hiA : i < (identifyInterfaceResidues rA rB icut).1.length := by omega
  have hjB : j < (identifyInterfaceResidues rA rB icut).2.length := by omega
  have hcA : (identifyInterfaceResidues rA rB icut).1.count true ≠ 0 := fun hz =>
    absurd (true_mem_of_getD hiA hmi) (List.count_eq_zero.mp hz)
  refine ⟨interfaceContactsEq_count_once rA rB _ _ lcut i j hiA hjB hj hmi hmj hclose,
    ?_, ?_, ?_⟩
  · intro lookA lookB hsi hsj
    exact interfaceContactsAln_count_once rA rB _ _ lcut lookA lookB i j
      hiA hjB hj hmi hmj hclose hsi hsj
  · intro mA mB hmA hmB
    have hmis : ¬(mA.length ≠ rA.length ∨ mB.length ≠ rB.length) := by
      push_neg
      exact ⟨hmA, hmB⟩
    have hstep : (computeInterfaceLddt mA mB rA rB icut lcut defaultThresholds
        none none).map InterfaceResult.totalInterfaceContacts
        = (if (identifyInterfaceResidues rA rB icut).1.count true = 0
              ∧ (identifyInterfaceResidues rA rB icut).2.count true = 0
            then some (0 : ℕ)
            else some (interfaceContactsEq rA rB (identifyInterfaceResidues rA rB icut).1
              (identifyInterfaceResidues rA rB icut).2 lcut).length) := by
      simp only [computeInterfaceLddt]
      rw [if_neg h0, if_neg hmis]
      split
      · rfl
      · rfl
    rw [hstep, if_neg (fun hc => hcA hc.1)]
  · intro mA mB psA psB hmis
    have hstep : (computeInterfaceLddt mA mB rA rB icut lcut defaultThresholds
        (some psA) (some psB)).map InterfaceResult.totalInterfaceContacts
        = (if (identifyInterfaceResidues rA rB icut).1.count true = 0
              ∧ (identifyInterfaceResidues rA rB icut).2.count true = 0
            then some (0 : ℕ)
            else if (interfaceContactsAln rA rB (identifyInterfaceResidues rA rB icut).1
                (identifyInterfaceResidues rA rB icut).2 lcut
                (refToModel psA) (refToModel psB)).all
                (fun q => decide (q.2.1 < mA.length) && decide (q.2.2 < mB.length)) then
              some (interfaceContactsAln rA rB (identifyInterfaceResidues rA rB icut).1
                (identifyInterfaceResidues rA rB icut).2 lcut
                (refToModel psA) (refToModel psB)).length
            else none) := by
      simp only [computeInterfaceLddt]
      rw [if_neg h0, if_pos hmis]
      split
      · rfl
      · split
        · rfl
        · rfl
    constructor
    · intro hall
      rw [hstep, if_neg (fun hc => hcA hc.1), if_pos hall]
    · intro hfalse
      have h2 := hstep
      rw [if_neg (fun hc => hcA hc.1),
        if_neg (by rw [hfalse]; simp : ¬((interfaceContactsAln rA rB
          (identifyInterfaceResidues rA rB icut).1
          (identifyInterfaceResidues rA rB icut).2 lcut
          (refToModel psA) (refToModel psB)).all
          (fun q => decide (q.2.1 < mA.length) && decide (q.2.2 < mB.length)) = true))] at h2
      exact Option.map_eq_none'.mp h2

theorem interface_contact_counted_once_witness :
    ((interfaceContactsEq [⟨0,0,0⟩] [⟨4,0,0⟩]
        (identifyInterfaceResidues [⟨0,0,0⟩] [⟨4,0,0⟩] 8).1
        (identifyInterfaceResidues [⟨0,0,0⟩] [⟨4,0,0⟩] 8).2 15).countP
      (fun q => q == (0, 0)) = 1)
    ∧ ((interfaceContactsAln [⟨0,0,0⟩] [⟨4,0,0⟩]
        (identifyInterfaceResidues [⟨0,0,0⟩] [⟨4,0,0⟩] 8).1
        (identifyInterfaceResidues [⟨0,0,0⟩] [⟨4,0,0⟩] 8).2 15
        (fun _ => some 0) (fun _ => some 0)).countP
      (fun q => q.1 == (0, 0)) = 1)
    ∧ ((computeInterfaceLddt [⟨0,0,0⟩] [⟨4,0,0⟩] [⟨0,0,0⟩] [⟨4,0,0⟩] 8 15
        defaultThresholds none none).map InterfaceResult.totalInterfaceContacts
      = some (interfaceContactsEq [⟨0,0,0⟩] [⟨4,0,0⟩]
          (identifyInterfaceResidues [⟨0,0,0⟩] [⟨4,0,0⟩] 8).1
          (identifyInterfaceResidues [⟨0,0,0⟩] [⟨4,0,0⟩] 8).2 15).length)
    ∧ ((computeInterfaceLddt [⟨0,0,0⟩, ⟨9,9,9⟩] [⟨4,0,0⟩] [⟨0,0,0⟩] [⟨4,0,0⟩] 8 15
        defaultThresholds (some [(0, 0)]) (some [(0, 0)])).map
        InterfaceResult.totalInterfaceContacts
      = some (interfaceContactsAln [⟨0,0,0⟩] [⟨4,0,0⟩]
          (identifyInterfaceResidues [⟨0,0,0⟩] [⟨4,0,0⟩] 8).1
          (identifyInterfaceResidues [⟨0,0,0⟩] [⟨4,0,0⟩] 8).2 15
          (refToModel [(0, 0)]) (refToModel [(0, 0)])).length) := by
  have hidm : identifyInterfaceResidues [⟨0,0,0⟩] [⟨4,0,0⟩] 8 = ([true], [true]) := by
    norm_num [identifyInterfaceResidues, sqDistV, distLtB, v0, List.range_succ]
  have hclose : closeCrossB [⟨0,0,0⟩] [⟨4,0,0⟩] 15 0 0 = true := by
    norm_num [closeCrossB, sqDistV, distLtB, v0]
  have hcon : interfaceContactsAln [⟨0,0,0⟩] [⟨4,0,0⟩]
      (identifyInterfaceResidues [⟨0,0,0⟩] [⟨4,0,0⟩] 8).1
      (identifyInterfaceResidues [⟨0,0,0⟩] [⟨4,0,0⟩] 8).2 15
      (refToModel [(0, 0)]) (refToModel [(0, 0)]) = [((0, 0), (0, 0))] := by
    rw [hidm]
    norm_num [interfaceContactsAln, indicesWhere, refToModel, closeCrossB, sqDistV,
      distLtB, v0, List.range_succ]
  have h := interface_contact_counted_once [⟨0,0,0⟩] [⟨4,0,0⟩] 8 15 0 0
    (by norm_num) (by norm_num) (by rw [hidm]; rfl) (by rw [hidm]; rfl) hclose
  exact ⟨h.1, h.2.1 (fun _ => some 0) (fun _ => some 0) rfl rfl,
    h.2.2.1 [⟨0,0,0⟩] [⟨4,0,0⟩] rfl rfl,
    (h.2.2.2 [⟨0,0,0⟩, ⟨9,9,9⟩] [⟨4,0,0⟩] [(0, 0)] [(0, 0)] (by norm_num)).1
      (by rw [hcon]; rfl)⟩

/-- C6 counterexample: in the length-mismatch path, a mutually-interfacial
in-cutoff pair whose chain-A residue has no model counterpart contributes
zero times to `total_interface_contacts`. -/
theorem unmapped_interface_pair_not_counted :
    (identifyInterfaceResidues [⟨0,0,0⟩] [⟨4,0,0⟩] 8).1.getD 0 false = true
    ∧ (identifyInterfaceResidues [⟨0,0,0⟩] [⟨4,0,0⟩] 8).2.getD 0 false = true
    ∧ closeCrossB [⟨0,0,0⟩] [⟨4,0,0⟩] 15 0 0 = true
    ∧ (computeInterfaceLddt [⟨0,0,0⟩, ⟨9,9,9⟩] [⟨4,0,0⟩] [⟨0,0,0⟩] [⟨4,0,0⟩] 8 15
        defaultThresholds (some []) (some [(0, 0)])).map
        InterfaceResult.totalInterfaceContacts = some 0 := by
  have hidm : identifyInterfaceResidues [⟨0,0,0⟩] [⟨4,0,0⟩] 8 = ([true], [true]) := by
    norm_num [identifyInterfaceResidues, sqDistV, distLtB, v0, List.range_succ]
  refine ⟨by rw [hidm]; rfl, by rw [hidm]; rfl, ?_, ?_⟩
  · norm_num [closeCrossB, sqDistV, distLtB, v0]
  · norm_num [computeInterfaceLddt, hidm, interfaceContactsAln, indicesWhere,
      refToModel, closeCrossB, sqDistV, distLtB, v0, List.range_succ]

end StructEval
